import Mathlib

/-!
Verification of the profile-conversion and debuginfo-lifecycle core of the
parca-agent repository, as a shallow embedding in Lean 4.

The embedding follows the Go sources:
  * `pkg/pprof/pprof.go`      — the profile `Converter` (`NewConverter`, `Convert`,
    `mappingForAddr`, `addKernelLocation`, `addVDSOLocation`, `addAddrLocation`,
    `addAddrLocationNoNormalization`, `addPerfMapLocation`, `addJITDumpLocation`,
    `addFunction`).
  * `pkg/debuginfo/manager.go` — `shouldInitiate`, `upload`, `EnsureUploaded`.
  * `pkg/vdso` (the vdso source file) — the probe loop of `vdso.NewCache`.

Go machine integers are modelled as `Nat` (for `uint64` values) and `Int`
(for `int64` fields); the only source point where overflow matters is the
`int64(sample.Value)` reinterpretation, modelled explicitly by `uint64ToInt64`.
Go maps keyed by strings or addresses are modelled as association lists with
first-match lookup; insertion happens only when a lookup missed, exactly as in
the source. External collaborators (kernel-symbol resolver, address
normalizer, VDSO symbolizer, perf-map/jitdump caches, gRPC backend) are
modelled as oracles packaged in an environment record; fallible calls return
`Except`.
-/

/-- First-match association-list lookup; models a Go map read `v, ok := m[k]`. -/
def alookup {κ ν : Type} [DecidableEq κ] (k : κ) : List (κ × ν) → Option ν
  | [] => none
  | p :: t => if p.1 = k then some p.2 else alookup k t

/-- Go `process.Mapping` (pkg/process): one address-space region of the target
process. Only the fields the converter reads are modelled. -/
structure ProcessMapping where
  start : Nat
  limit : Nat
  offset : Nat
  file : String
  buildId : String
  deriving DecidableEq, Inhabited

/-- Go `pprofprofile.Mapping`: the serialized mapping record. -/
structure Mapping where
  id : Nat
  start : Nat
  limit : Nat
  offset : Nat
  file : String
  buildId : String
  deriving DecidableEq, Inhabited

/-- Go `pprofprofile.Function`. -/
structure PFunction where
  id : Nat
  name : String
  deriving DecidableEq, Inhabited

/-- Go `pprofprofile.Line`; the converter only ever sets the function reference. -/
structure Line where
  function : PFunction
  deriving DecidableEq, Inhabited

/-- Go `pprofprofile.Location`. Go stores a pointer to the mapping and, for
symbolized frames, one `Line` holding a pointer to the function; since
locations, mappings, and functions are never mutated after creation, the
pointees are embedded by value. -/
structure Location where
  id : Nat
  mapping : Mapping
  address : Nat
  line : List Line
  deriving DecidableEq, Inhabited

/-- Go `pprofprofile.Sample`: Go stores a slice of `*Location`; embedded by value. -/
structure Sample where
  value : List Int
  location : List Location
  deriving DecidableEq, Inhabited

/-- Go `pprofprofile.Profile`, restricted to the fields the converter writes. -/
structure Profile where
  timeNanos : Int
  durationNanos : Int
  period : Int
  sampleType : List (String × String)
  periodType : String × String
  mapping : List Mapping
  location : List Location
  function : List PFunction
  sample : List Sample
  deriving DecidableEq, Inhabited

/-- Go `profile.RawSample` (pkg/profile): `Value uint64`, leaf-first stacks. -/
structure RawSample where
  value : Nat
  userStack : List Nat
  kernelStack : List Nat
  deriving DecidableEq, Inhabited

/-- Go's `int64(v)` applied to a `uint64` value `v`: two's-complement
reinterpretation. -/
def uint64ToInt64 (v : Nat) : Int :=
  if v < 2 ^ 63 then (v : Int) else (v : Int) - 2 ^ 64

/-- A perf-map / jitdump symbol table (external package `pkg/perf`),
abstracted as a partial map from address to symbol. -/
def PerfMap : Type := List (Nat × String)

/-- Go `perf.Map.Lookup(addr)`: returns the symbol or an error. -/
def perfLookup (pm : PerfMap) (addr : Nat) : Except Unit String :=
  match alookup addr pm with
  | some s => Except.ok s
  | none => Except.error ()

/-- Oracles for the converter's external collaborators. Each field is the
(deterministic) reply the collaborator gives during this one conversion:
`kernelSymbolsResult` is `ksym.Resolve`'s reply, `normalize` is
`profiler.AddressNormalizer.Normalize`, `vdsoResolve` is
`VDSOSymbolizer.Resolve`, and the perf-map/jitdump fields return the Go
`(*perf.Map, error)` pair of `PerfMapForPID` / `JitdumpForPID`.
The converter memoizes the perf-map and jitdump calls (`cachedPerfMap`,
`cachedJitdump`); because the oracle is deterministic the memo is
observationally transparent and the embedding consults the oracle directly. -/
structure Env where
  kernelSymbolsResult : Except Unit (List (Nat × String))
  normalize : ProcessMapping → Nat → Except Unit Nat
  vdsoResolve : Nat → ProcessMapping → Except Unit String
  perfMapForPID : Nat → Option PerfMap × Option Unit
  jitdumpForPath : String → Option PerfMap × Option Unit

/-- The `Converter` struct (pkg/pprof/pprof.go). The metrics handle is
modelled by the single counter the claims mention: `frameDropMappingNil`
counts the increments of `frame_drop{reason="mapping_nil"}` made by this
converter. -/
structure Converter where
  disableJITSymbolization : Bool
  functionIndex : List (String × PFunction)
  addrLocationIndex : List (Nat × Location)
  perfmapLocationIndex : List (String × Location)
  jitdumpLocationIndex : List (String × Location)
  kernelLocationIndex : List (String × Location)
  vdsoLocationIndex : List (String × Location)
  pid : Nat
  mappings : List ProcessMapping
  kernelMapping : Mapping
  result : Profile
  frameDropMappingNil : Nat

/-- Modelled from the spec: `process.Mappings.ConvertToPprof` is not among the
sampled source files. Per the spec, the profile mappings mirror the process
mappings in order, with 1-based ids. -/
def convertToPprofAux : Nat → List ProcessMapping → List Mapping
  | _, [] => []
  | i, m :: t =>
      { id := i + 1, start := m.start, limit := m.limit, offset := m.offset,
        file := m.file, buildId := m.buildId } :: convertToPprofAux (i + 1) t

/-- Modelled from the spec: see `convertToPprofAux`. -/
def convertToPprof (ms : List ProcessMapping) : List Mapping :=
  convertToPprofAux 0 ms

/-- Go `NewConverter` (pprof.go line 70). `captureTimeNanos` is the capture
timestamp and `nowNanos` the wall clock at construction, so that
`DurationNanos: int64(time.Since(captureTime))` becomes
`nowNanos - captureTimeNanos`. -/
def NewConverter (disableJITSymbolization : Bool) (pid : Nat)
    (mappings : List ProcessMapping) (captureTimeNanos nowNanos periodNS : Int) :
    Converter :=
  let pprofMappings := convertToPprof mappings
  -- +1 because pprof uses 1-indexing to be able to differentiate from 0 (unset).
  let kernelMapping : Mapping :=
    { id := pprofMappings.length + 1, start := 0, limit := 0, offset := 0,
      file := "[kernel.kallsyms]", buildId := "" }
  { disableJITSymbolization := disableJITSymbolization
    functionIndex := []
    addrLocationIndex := []
    perfmapLocationIndex := []
    jitdumpLocationIndex := []
    kernelLocationIndex := []
    vdsoLocationIndex := []
    pid := pid
    mappings := mappings
    kernelMapping := kernelMapping
    result :=
      { timeNanos := captureTimeNanos
        durationNanos := nowNanos - captureTimeNanos
        period := periodNS
        sampleType := [("samples", "count")]
        periodType := ("cpu", "nanoseconds")
        mapping := pprofMappings ++ [kernelMapping]
        location := []
        function := []
        sample := [] }
    frameDropMappingNil := 0 }

/-- Go `mappingForAddr` (pprof.go line 193): index of the first mapping whose
half-open `[start, limit)` range contains `addr`; Go returns `-1` on miss,
modelled as `none`. -/
def mappingForAddrAux (addr : Nat) : Nat → List Mapping → Option Nat
  | _, [] => none
  | i, m :: t =>
      if m.start ≤ addr ∧ addr < m.limit then some i
      else mappingForAddrAux addr (i + 1) t

/-- Go `mappingForAddr` entry point. -/
def mappingForAddr (mappings : List Mapping) (addr : Nat) : Option Nat :=
  mappingForAddrAux addr 0 mappings

/-- Go `addFunction` (pprof.go line 394). -/
def addFunction (c : Converter) (name : String) : Converter × PFunction :=
  match alookup name c.functionIndex with
  | some f => (c, f)
  | none =>
    let f : PFunction := { id := c.result.function.length + 1, name := name }
    ({ c with
        functionIndex := (name, f) :: c.functionIndex,
        result := { c.result with function := c.result.function ++ [f] } }, f)

/-- The kernel symbol for `addr`: map hit, or the literal `"not found"`
(pprof.go lines 207-210). -/
def kernelSymbolFor (kernelSymbols : List (Nat × String)) (addr : Nat) : String :=
  match alookup addr kernelSymbols with
  | some s => s
  | none => "not found"

/-- Go `addKernelLocation` (pprof.go line 202). `addFunction` is pure, so the
source's single call appears here as `.1` / `.2` of the same application; the
location id uses the location-table length, which `addFunction` leaves
untouched, matching the source's `len(c.result.Location) + 1`. -/
def addKernelLocation (c : Converter) (m : Mapping)
    (kernelSymbols : List (Nat × String)) (addr : Nat) : Converter × Location :=
  let kernelSymbol := kernelSymbolFor kernelSymbols addr
  match alookup kernelSymbol c.kernelLocationIndex with
  | some l => (c, l)
  | none =>
    let c1 := (addFunction c kernelSymbol).1
    let f := (addFunction c kernelSymbol).2
    let l : Location :=
      { id := c1.result.location.length + 1, mapping := m, address := 0,
        line := [{ function := f }] }
    ({ c1 with
        kernelLocationIndex := (kernelSymbol, l) :: c1.kernelLocationIndex,
        result := { c1.result with location := c1.result.location ++ [l] } }, l)

/-- The VDSO function name `addVDSOLocation` works with (pprof.go lines
235-239): the symbolizer's reply, or the literal `"unknown"` on error. -/
def vdsoFunctionName (env : Env) (processMapping : ProcessMapping) (addr : Nat) :
    String :=
  match env.vdsoResolve addr processMapping with
  | Except.ok s => s
  | Except.error _ => "unknown"

/-- Go `addVDSOLocation` (pprof.go line 230): resolve through the VDSO
symbolizer, substituting `"unknown"` on error, then dedup by function name. -/
def addVDSOLocation (env : Env) (c : Converter) (processMapping : ProcessMapping)
    (m : Mapping) (addr : Nat) : Converter × Location :=
  let functionName := vdsoFunctionName env processMapping addr
  match alookup functionName c.vdsoLocationIndex with
  | some l => (c, l)
  | none =>
    let c1 := (addFunction c functionName).1
    let f := (addFunction c functionName).2
    let l : Location :=
      { id := c1.result.location.length + 1, mapping := m, address := 0,
        line := [{ function := f }] }
    ({ c1 with
        vdsoLocationIndex := (functionName, l) :: c1.vdsoLocationIndex,
        result := { c1.result with location := c1.result.location ++ [l] } }, l)

/-- Go `addAddrLocationNoNormalization` (pprof.go line 273). -/
def addAddrLocationNoNormalization (c : Converter) (m : Mapping) (addr : Nat) :
    Converter × Location :=
  match alookup addr c.addrLocationIndex with
  | some l => (c, l)
  | none =>
    let l : Location :=
      { id := c.result.location.length + 1, mapping := m, address := addr,
        line := [] }
    ({ c with
        addrLocationIndex := (addr, l) :: c.addrLocationIndex,
        result := { c.result with location := c.result.location ++ [l] } }, l)

/-- Go `addAddrLocation` (pprof.go line 259): normalize the address, falling back
to the raw address on error. -/
def addAddrLocation (env : Env) (c : Converter) (processMapping : ProcessMapping)
    (m : Mapping) (addr : Nat) : Converter × Location :=
  let normalizedAddress :=
    match env.normalize processMapping addr with
    | Except.ok a => a
    | Except.error _ => addr
  addAddrLocationNoNormalization c m normalizedAddress

/-- Go `addPerfMapLocation` (pprof.go line 290). The error component of the
`(map, err)` pair is only logged by the source, so the embedding ignores it. -/
def addPerfMapLocation (env : Env) (c : Converter) (m : Mapping) (addr : Nat) :
    Converter × Location :=
  if c.disableJITSymbolization then addAddrLocationNoNormalization c m addr
  else
    match (env.perfMapForPID c.pid).1 with
    | none => addAddrLocationNoNormalization c m addr
    | some perfMap =>
      match perfLookup perfMap addr with
      | Except.error _ => addAddrLocationNoNormalization c m addr
      | Except.ok symbol =>
        match alookup symbol c.perfmapLocationIndex with
        | some l => (c, l)
        | none =>
          let c1 := (addFunction c symbol).1
          let f := (addFunction c symbol).2
          let l : Location :=
            { id := c1.result.location.length + 1, mapping := m, address := 0,
              line := [{ function := f }] }
          ({ c1 with
              perfmapLocationIndex := (symbol, l) :: c1.perfmapLocationIndex,
              result := { c1.result with location := c1.result.location ++ [l] } }, l)

/-- Go `addJITDumpLocation` (pprof.go line 339); the per-path memo
`cachedJitdump` is transparent for a deterministic oracle. -/
def addJITDumpLocation (env : Env) (c : Converter) (m : Mapping) (addr : Nat)
    (path : String) : Converter × Location :=
  if c.disableJITSymbolization then addAddrLocationNoNormalization c m addr
  else
    match (env.jitdumpForPath path).1 with
    | none => addAddrLocationNoNormalization c m addr
    | some jitdump =>
      match perfLookup jitdump addr with
      | Except.error _ => addAddrLocationNoNormalization c m addr
      | Except.ok symbol =>
        match alookup symbol c.jitdumpLocationIndex with
        | some l => (c, l)
        | none =>
          let c1 := (addFunction c symbol).1
          let f := (addFunction c symbol).2
          let l : Location :=
            { id := c1.result.location.length + 1, mapping := m, address := 0,
              line := [{ function := f }] }
          ({ c1 with
              jitdumpLocationIndex := (symbol, l) :: c1.jitdumpLocationIndex,
              result := { c1.result with location := c1.result.location ++ [l] } }, l)

/-- The kernel-frame loop of `Convert` (pprof.go lines 156-159): appends one
location per kernel address to the sample's location slice `acc`. -/
def processKernelStack (kernelSymbols : List (Nat × String)) (c : Converter)
    (acc : List Location) : List Nat → Converter × List Location
  | [] => (c, acc)
  | addr :: rest =>
    let r := addKernelLocation c c.kernelMapping kernelSymbols addr
    processKernelStack kernelSymbols r.1 (acc ++ [r.2]) rest

/-- The `switch` statement of `Convert`'s user-frame handling (pprof.go lines
171-184): dispatch on the profile mapping's file. -/
def routeUserFrame (env : Env) (c : Converter) (processMapping : ProcessMapping)
    (pprofMapping : Mapping) (addr : Nat) : Converter × Location :=
  if pprofMapping.file = "[vdso]" then
    addVDSOLocation env c processMapping pprofMapping addr
  else if pprofMapping.file = "jit" then
    addPerfMapLocation env c pprofMapping addr
  else if pprofMapping.file.endsWith ".dump" then
    addJITDumpLocation env c pprofMapping addr pprofMapping.file
  else
    addAddrLocation env c processMapping pprofMapping addr

/-- The user-frame loop of `Convert` (pprof.go lines 161-185): route each
address through `mappingForAddr`; on miss increment the `mapping_nil`
frame-drop counter and skip the frame; otherwise dispatch on the mapping's
file. `mappingForAddr` never selects the kernel mapping (its range is empty),
so the process-mapping read `c.mappings[mappingIndex]` is in bounds in Go; the
embedding uses `getD` with an unreachable default. -/
def processUserStack (env : Env) (c : Converter) (acc : List Location) :
    List Nat → Converter × List Location
  | [] => (c, acc)
  | addr :: rest =>
    match mappingForAddr c.result.mapping addr with
    | none =>
      processUserStack env
        { c with frameDropMappingNil := c.frameDropMappingNil + 1 } acc rest
    | some mappingIndex =>
      let processMapping := c.mappings.getD mappingIndex default
      let pprofMapping := c.result.mapping.getD mappingIndex default
      let r := routeUserFrame env c processMapping pprofMapping addr
      processUserStack env r.1 (acc ++ [r.2]) rest

/-- One iteration of `Convert`'s sample loop (pprof.go lines 150-188): build
the pprof sample (kernel frames first, then user frames, sharing one location
slice) and append it to the profile. -/
def processSample (env : Env) (kernelSymbols : List (Nat × String))
    (c : Converter) (s : RawSample) : Converter :=
  let rk := processKernelStack kernelSymbols c [] s.kernelStack
  let ru := processUserStack env rk.1 rk.2 s.userStack
  { ru.1 with
      result := { ru.1.result with
        sample := ru.1.result.sample ++
          [{ value := [uint64ToInt64 s.value], location := ru.2 }] } }

/-- The sample loop of `Convert`. -/
def convertLoop (env : Env) (kernelSymbols : List (Nat × String))
    (c : Converter) : List RawSample → Converter
  | [] => c
  | s :: t => convertLoop env kernelSymbols (processSample env kernelSymbols c s) t

/-- The kernel-symbol table `Convert` works with (pprof.go lines 137-148): the
resolver is called once on the union of all kernel-stack addresses; on error
the empty map is substituted. The oracle already fixes the reply, so the
address-set collection has no observable effect here. -/
def convertKernelSymbols (env : Env) : List (Nat × String) :=
  match env.kernelSymbolsResult with
  | Except.ok syms => syms
  | Except.error _ => []

/-- The converter state after `Convert` returns. -/
def convertFinal (env : Env) (c : Converter) (rawData : List RawSample) :
    Converter :=
  convertLoop env (convertKernelSymbols env) c rawData

/-- Go `Convert` (pprof.go line 136): returns `(c.result, nil)`; the second
component is the Go `error` return, which is always `nil`. -/
def Convert (env : Env) (c : Converter) (rawData : List RawSample) :
    Profile × Option String :=
  ((convertFinal env c rawData).result, none)

/-!
Section: Debuginfo manager (pkg/debuginfo/manager.go)

The `should_initiate_cache` is a TTL'd concurrent set of build IDs; within
one TTL window it is modelled as a list of build IDs. Backend RPCs and
filesystem effects are oracles. One `DebugEnv` describes the replies the
backend gives during the calls under consideration.
-/

/-- gRPC status codes the manager inspects. -/
inductive GrpcCode
  | alreadyExists
  | other
  deriving DecidableEq

/-- Go `debuginfopb.UploadInstructions_UploadStrategy`. -/
inductive UploadStrategy
  | unspecified
  | grpc
  | signedURL
  deriving DecidableEq

/-- Go `debuginfopb.UploadInstructions`. -/
structure UploadInstructions where
  uploadId : String
  uploadStrategy : UploadStrategy
  signedUrl : String
  deriving DecidableEq

/-- Oracles for the manager's collaborators during one upload cycle. -/
structure DebugEnv where
  /-- Reply of the `ShouldInitiateUpload` RPC for this build ID. -/
  backendShouldInitiate : Except Unit Bool
  /-- Reply of the `InitiateUpload` RPC; an error carries its gRPC code. -/
  initiateUploadResult : Except GrpcCode UploadInstructions
  /-- Result of obtaining a reader and hashing the debuginfo file
  (memoized by `hashCache`; the memo of a deterministic hash is transparent). -/
  hashResult : Except Unit String
  /-- Result of the gRPC streaming upload. -/
  grpcUploadResult : Except Unit Unit
  /-- Result of the signed-URL HTTP PUT. -/
  signedURLUploadResult : Except Unit Unit
  /-- Reply of the `MarkUploadFinished` RPC. -/
  markUploadFinishedResult : Except Unit Unit
  /-- Result of `ExtractOrFind` (finder, pool open, extraction). -/
  extractOrFindResult : Except Unit Unit

/-- Go `shouldInitiate` (manager.go line 195): cache hit returns `false`; on a
miss the backend is consulted; a backend error is logged and treated as `true`
(fail-open); a "no" reply populates the cache and returns `false`. Returns the
decision together with the updated cache. -/
def shouldInitiate (cache : List String) (backendResp : Except Unit Bool)
    (buildID : String) : Bool × List String :=
  if buildID ∈ cache then (false, cache)
  else
    match backendResp with
    | Except.error _ => (true, cache)
    | Except.ok resp =>
      if !resp then (false, buildID :: cache)
      else (true, cache)

/-- Go `uploadFile` (manager.go line 501): dispatch on the upload strategy;
`UNSPECIFIED` is an explicit error. -/
def uploadFile (env : DebugEnv) (uploadInstructions : UploadInstructions) :
    Except Unit Unit :=
  match uploadInstructions.uploadStrategy with
  | UploadStrategy.grpc => env.grpcUploadResult
  | UploadStrategy.signedURL => env.signedURLUploadResult
  | UploadStrategy.unspecified => Except.error ()

/-- Observable outcome of one `upload` call: the Go error return, the
`should_initiate_cache` afterwards, whether a body transfer completed, and
whether `MarkUploadFinished` was reached. -/
structure UploadResult where
  err : Option String
  cache : List String
  bodyTransferred : Bool
  markFinished : Bool
  deriving DecidableEq

/-- Go `upload` (manager.go line 412): re-check `shouldInitiate`, hash the file,
issue `InitiateUpload`; an `AlreadyExists` status populates the cache and is
reported as success without any body transfer; otherwise transfer the body per
the returned strategy and finish with `MarkUploadFinished`. -/
def uploadOp (env : DebugEnv) (cache : List String) (buildID : String) :
    UploadResult :=
  let si := shouldInitiate cache env.backendShouldInitiate buildID
  if !si.1 then
    { err := none, cache := si.2, bodyTransferred := false, markFinished := false }
  else
    match env.hashResult with
    | Except.error _ =>
      { err := some "hash debuginfos", cache := si.2,
        bodyTransferred := false, markFinished := false }
    | Except.ok _ =>
      match env.initiateUploadResult with
      | Except.error code =>
        if code = GrpcCode.alreadyExists then
          { err := none, cache := buildID :: si.2,
            bodyTransferred := false, markFinished := false }
        else
          { err := some "initiate upload", cache := si.2,
            bodyTransferred := false, markFinished := false }
      | Except.ok instructions =>
        match uploadFile env instructions with
        | Except.error _ =>
          { err := some "upload debuginfo", cache := si.2,
            bodyTransferred := false, markFinished := false }
        | Except.ok _ =>
          match env.markUploadFinishedResult with
          | Except.error _ =>
            { err := some "mark upload finished", cache := si.2,
              bodyTransferred := true, markFinished := false }
          | Except.ok _ =>
            { err := none, cache := si.2,
              bodyTransferred := true, markFinished := true }

/-- Observable outcome of one `EnsureUploaded` call. `uploadIssued` records
whether the upload path (semaphore, single-flight, `upload`) was entered at
all. -/
structure EnsureResult where
  err : Option String
  cache : List String
  uploadIssued : Bool
  bodyTransferred : Bool
  deriving DecidableEq

/-- Go `EnsureUploaded` (manager.go line 139): consult `shouldInitiate`; on
`false` return `nil` immediately (the `shared` fast path). Otherwise run
extract-or-find and then `Upload`, which wraps `upload` in the semaphore and
the per-build-ID single-flight group; with a single caller both wrappers are
identities, so the embedding calls `uploadOp` directly. -/
def EnsureUploaded (env : DebugEnv) (cache : List String) (buildID : String) :
    EnsureResult :=
  let si := shouldInitiate cache env.backendShouldInitiate buildID
  if !si.1 then
    { err := none, cache := si.2, uploadIssued := false, bodyTransferred := false }
  else
    match env.extractOrFindResult with
    | Except.error _ =>
      { err := some "extract or find", cache := si.2,
        uploadIssued := false, bodyTransferred := false }
    | Except.ok _ =>
      let r := uploadOp env si.2 buildID
      { err := r.err, cache := r.cache, uploadIssued := true,
        bodyTransferred := r.bodyTransferred }

/-!
Section: VDSO cache construction probe (pkg/vdso, `NewCache`)

Only the filesystem probe loop is embedded; `metadata.KernelRelease`, the
object-file pool, and ELF parsing are oracles outside this loop.
-/

/-- The candidate file names of the probe loop in `vdso.NewCache`. -/
def vdsoCandidates : List String := ["vdso.so", "vdso64.so"]

/-- The probe path built by `vdso.NewCache`:
`fmt.Sprintf("/usr/lib/modules/%s/vdso/%s", kernelVersion, vdso)`. -/
def vdsoPath (kernelVersion candidate : String) : String :=
  "/usr/lib/modules/" ++ kernelVersion ++ "/vdso/" ++ candidate

/-- The full ordered list of paths the probe loop may try. -/
def codeVdsoProbePaths (kernelVersion : String) : List String :=
  vdsoCandidates.map (vdsoPath kernelVersion)

/-- Modelled from the spec (for comparison with `codeVdsoProbePaths`): the
spec's stated probe paths `/usr/lib/modules/<release>/vdso.so` and
`/usr/lib/modules/<release>/vdso64.so`, with no `vdso/` directory component. -/
def specVdsoProbePaths (kernelVersion : String) : List String :=
  ["/usr/lib/modules/" ++ kernelVersion ++ "/vdso.so",
   "/usr/lib/modules/" ++ kernelVersion ++ "/vdso64.so"]

/-- The probe loop of `vdso.NewCache`: try each candidate path through the
object-file pool (`op` is `objFilePool.Open`), keep the first that opens,
fail if none opened. -/
def vdsoProbeAux (kernelVersion : String) (op : String → Except Unit Unit) :
    List String → Except Unit String
  | [] => Except.error ()
  | v :: rest =>
    match op (vdsoPath kernelVersion v) with
    | Except.ok _ => Except.ok (vdsoPath kernelVersion v)
    | Except.error _ => vdsoProbeAux kernelVersion op rest

/-- Entry point of the probe loop. -/
def vdsoProbe (kernelVersion : String) (op : String → Except Unit Unit) :
    Except Unit String :=
  vdsoProbeAux kernelVersion op vdsoCandidates

/-!
Section: Basic lemmas: association lists, dense id lists, index well-formedness
-/

theorem alookup_mem {κ ν : Type} [DecidableEq κ] {k : κ} {v : ν} :
    ∀ {l : List (κ × ν)}, alookup k l = some v → (k, v) ∈ l := by
  intro l
  induction l with
  | nil => intro h; simp [alookup] at h
  | cons p t ih =>
    intro h
    rw [alookup] at h
    split at h
    · rename_i hp
      have hv : p.2 = v := Option.some.inj h
      have hp2 : p = (k, v) := Prod.ext hp hv
      rw [← hp2]
      exact List.mem_cons_self p t
    · exact List.mem_cons_of_mem p (ih h)

theorem alookup_none_not_mem {κ ν : Type} [DecidableEq κ] {k : κ} {v : ν} :
    ∀ {l : List (κ × ν)}, alookup k l = none → (k, v) ∉ l := by
  intro l
  induction l with
  | nil => intro _; simp
  | cons p t ih =>
    intro h hmem
    rw [alookup] at h
    split at h
    · cases h
    · rename_i hp
      rcases List.mem_cons.mp hmem with he | ht
      · exact hp (by rw [← he])
      · exact ih h ht

theorem alookup_cons_preserve {κ ν : Type} [DecidableEq κ] {k k2 : κ}
    {v v2 : ν} {l : List (κ × ν)} (habs : alookup k l = none)
    (h : alookup k2 l = some v2) : alookup k2 ((k, v) :: l) = some v2 := by
  rw [alookup]
  split
  · rename_i he
    simp only at he
    rw [← he] at h
    rw [habs] at h
    cases h
  · exact h

/-- Appending an element whose id is `length + 1` keeps the id list dense. -/
theorem ids_snoc {α : Type} (f : α → Nat) (xs : List α) (x : α)
    (h : xs.map f = List.range' 1 xs.length) (hx : f x = xs.length + 1) :
    (xs ++ [x]).map f = List.range' 1 (xs ++ [x]).length := by
  rw [List.map_append, h, List.length_append]
  simp only [List.map_cons, List.map_nil, List.length_cons, List.length_nil]
  rw [List.range'_concat]
  simp [hx, Nat.add_comm]

/-- A member of a list with dense 1-based ids is the unique element carrying
its id. -/
theorem filter_id_singleton {locs : List Location}
    (h : locs.map Location.id = List.range' 1 locs.length) {l : Location}
    (hl : l ∈ locs) :
    (locs.filter (fun l2 => l2.id == l.id)).length = 1 := by
  have h1 : (locs.filter (fun l2 => l2.id == l.id)).length
      = List.countP (fun l2 => l2.id == l.id) locs :=
    (List.countP_eq_length_filter _ _).symm
  have h2 : List.countP (fun l2 => l2.id == l.id) locs
      = List.countP (fun n => n == l.id) (locs.map Location.id) := by
    rw [List.countP_map]
    rfl
  have h3 : List.countP (fun n => n == l.id) (locs.map Location.id)
      = List.count l.id (locs.map Location.id) := by
    rw [List.count_eq_countP]
  have hmem : l.id ∈ locs.map Location.id := List.mem_map_of_mem Location.id hl
  have hnd : (locs.map Location.id).Nodup := by
    rw [h]; exact List.nodup_range' 1 locs.length
  rw [h1, h2, h3]
  exact List.count_eq_one_of_mem hnd hmem

/-- Index well-formedness: every indexed location is in the table, and a key
is bound to at most one location. -/
def IdxOk {κ : Type} (idx : List (κ × Location)) (locs : List Location) : Prop :=
  (∀ k l, (k, l) ∈ idx → l ∈ locs) ∧
  (∀ k l l2, (k, l) ∈ idx → (k, l2) ∈ idx → l = l2)

theorem IdxOk_nil {κ : Type} (locs : List Location) :
    IdxOk ([] : List (κ × Location)) locs :=
  ⟨fun _ _ h => absurd h (List.not_mem_nil _), fun _ _ _ h => absurd h (List.not_mem_nil _)⟩

theorem IdxOk_append {κ : Type} {idx : List (κ × Location)}
    {locs : List Location} (h : IdxOk idx locs) (t : List Location) :
    IdxOk idx (locs ++ t) :=
  ⟨fun k l hm => List.mem_append_left t (h.1 k l hm), h.2⟩

theorem IdxOk_insert {κ : Type} [DecidableEq κ] {idx : List (κ × Location)}
    {locs : List Location} (h : IdxOk idx locs) {k : κ}
    (habs : alookup k idx = none) (l : Location) :
    IdxOk ((k, l) :: idx) (locs ++ [l]) := by
  constructor
  · intro k2 l2 hm
    rcases List.mem_cons.mp hm with he | ht
    · cases he
      exact List.mem_append_right locs (List.mem_cons_self l [])
    · exact List.mem_append_left [l] (h.1 k2 l2 ht)
  · intro k2 l2 l3 hm2 hm3
    rcases List.mem_cons.mp hm2 with he2 | ht2 <;>
      rcases List.mem_cons.mp hm3 with he3 | ht3
    · cases he2; cases he3; rfl
    · cases he2
      exact absurd ht3 (alookup_none_not_mem habs)
    · cases he3
      exact absurd ht2 (alookup_none_not_mem habs)
    · exact h.2 k2 l2 l3 ht2 ht3

/-!
Section: The converter step relation: extension and invariant
-/

/-- What every converter step preserves or only extends: the mapping table,
the kernel mapping, the process mappings, the time fields, the append-only
tables, and existing kernel-index bindings. -/
structure StepExt (c c2 : Converter) : Prop where
  map_eq : c2.result.mapping = c.result.mapping
  kern_eq : c2.kernelMapping = c.kernelMapping
  pmaps_eq : c2.mappings = c.mappings
  pid_eq : c2.pid = c.pid
  djit_eq : c2.disableJITSymbolization = c.disableJITSymbolization
  time_eq : c2.result.timeNanos = c.result.timeNanos
  dur_eq : c2.result.durationNanos = c.result.durationNanos
  loc_ext : ∃ t, c2.result.location = c.result.location ++ t
  fun_ext : ∃ t, c2.result.function = c.result.function ++ t
  samp_ext : ∃ t, c2.result.sample = c.result.sample ++ t
  kmono : ∀ k l, alookup k c.kernelLocationIndex = some l →
    alookup k c2.kernelLocationIndex = some l

theorem StepExt.of_eq {c c2 : Converter} (h : c2 = c) : StepExt c c2 := by
  subst h
  exact ⟨rfl, rfl, rfl, rfl, rfl, rfl, rfl, ⟨[], (List.append_nil _).symm⟩,
    ⟨[], (List.append_nil _).symm⟩, ⟨[], (List.append_nil _).symm⟩, fun _ _ h => h⟩

theorem StepExt.trans {c c2 c3 : Converter} (h1 : StepExt c c2) (h2 : StepExt c2 c3) :
    StepExt c c3 := by
  refine ⟨h2.map_eq.trans h1.map_eq, h2.kern_eq.trans h1.kern_eq,
    h2.pmaps_eq.trans h1.pmaps_eq, h2.pid_eq.trans h1.pid_eq,
    h2.djit_eq.trans h1.djit_eq, h2.time_eq.trans h1.time_eq,
    h2.dur_eq.trans h1.dur_eq, ?_, ?_, ?_, ?_⟩
  · obtain ⟨t1, ht1⟩ := h1.loc_ext
    obtain ⟨t2, ht2⟩ := h2.loc_ext
    exact ⟨t1 ++ t2, by rw [ht2, ht1, List.append_assoc]⟩
  · obtain ⟨t1, ht1⟩ := h1.fun_ext
    obtain ⟨t2, ht2⟩ := h2.fun_ext
    exact ⟨t1 ++ t2, by rw [ht2, ht1, List.append_assoc]⟩
  · obtain ⟨t1, ht1⟩ := h1.samp_ext
    obtain ⟨t2, ht2⟩ := h2.samp_ext
    exact ⟨t1 ++ t2, by rw [ht2, ht1, List.append_assoc]⟩
  · exact fun k l h => h2.kmono k l (h1.kmono k l h)

/-- The conversion invariant: dense 1-based ids in the location and function
tables, referential integrity of locations into the mapping and function
tables, well-formed dedup indexes, and the kernel-index content needed for
symbol substitution. -/
structure ConvInv (c : Converter) : Prop where
  locIds : c.result.location.map Location.id = List.range' 1 c.result.location.length
  funIds : c.result.function.map PFunction.id = List.range' 1 c.result.function.length
  kmem : c.kernelMapping ∈ c.result.mapping
  locMap : ∀ l ∈ c.result.location, l.mapping ∈ c.result.mapping
  locFun : ∀ l ∈ c.result.location, ∀ ln ∈ l.line, ln.function ∈ c.result.function
  fIdx : ∀ n f, (n, f) ∈ c.functionIndex → f ∈ c.result.function ∧ f.name = n
  kIdx : IdxOk c.kernelLocationIndex c.result.location
  vIdx : IdxOk c.vdsoLocationIndex c.result.location
  pIdx : IdxOk c.perfmapLocationIndex c.result.location
  jIdx : IdxOk c.jitdumpLocationIndex c.result.location
  aIdx : IdxOk c.addrLocationIndex c.result.location
  kName : ∀ s l, (s, l) ∈ c.kernelLocationIndex →
    ∃ f, l.line = [{ function := f }] ∧ f.name = s

theorem forall_mem_snoc {α : Type} {P : α → Prop} {xs : List α} {x : α}
    (h : ∀ y ∈ xs, P y) (hx : P x) : ∀ y ∈ xs ++ [x], P y := by
  intro y hy
  rcases List.mem_append.mp hy with h1 | h2
  · exact h y h1
  · rw [List.mem_singleton] at h2
    rw [h2]
    exact hx

/-!
Section: Step specifications for the converter operations
-/

theorem addFunction_frame (c : Converter) (name : String) :
    (addFunction c name).1.result.location = c.result.location ∧
    (addFunction c name).1.result.sample = c.result.sample ∧
    (addFunction c name).1.result.mapping = c.result.mapping ∧
    (addFunction c name).1.result.timeNanos = c.result.timeNanos ∧
    (addFunction c name).1.result.durationNanos = c.result.durationNanos ∧
    (addFunction c name).1.kernelLocationIndex = c.kernelLocationIndex ∧
    (addFunction c name).1.vdsoLocationIndex = c.vdsoLocationIndex ∧
    (addFunction c name).1.perfmapLocationIndex = c.perfmapLocationIndex ∧
    (addFunction c name).1.jitdumpLocationIndex = c.jitdumpLocationIndex ∧
    (addFunction c name).1.addrLocationIndex = c.addrLocationIndex ∧
    (addFunction c name).1.kernelMapping = c.kernelMapping ∧
    (addFunction c name).1.mappings = c.mappings ∧
    (addFunction c name).1.pid = c.pid ∧
    (addFunction c name).1.disableJITSymbolization = c.disableJITSymbolization ∧
    (addFunction c name).1.frameDropMappingNil = c.frameDropMappingNil := by
  cases hl : alookup name c.functionIndex <;> simp [addFunction, hl]

theorem addFunction_fun_ext (c : Converter) (name : String) :
    ∃ t, (addFunction c name).1.result.function = c.result.function ++ t := by
  cases hl : alookup name c.functionIndex with
  | some f =>
    simp only [addFunction, hl]
    exact ⟨[], (List.append_nil _).symm⟩
  | none =>
    simp only [addFunction, hl]
    exact ⟨_, rfl⟩

theorem addFunction_ext (c : Converter) (name : String) :
    StepExt c (addFunction c name).1 := by
  obtain ⟨h1, h2, h3, h4, h5, h6, _, _, _, _, h11, h12, h13, h14, _⟩ :=
    addFunction_frame c name
  exact ⟨h3, h11, h12, h13, h14, h4, h5,
    ⟨[], by rw [h1, List.append_nil]⟩,
    addFunction_fun_ext c name,
    ⟨[], by rw [h2, List.append_nil]⟩,
    fun k l h => by rw [h6]; exact h⟩

theorem addFunction_spec (c : Converter) (name : String) (hInv : ConvInv c) :
    ConvInv (addFunction c name).1 ∧
    (addFunction c name).2 ∈ (addFunction c name).1.result.function ∧
    (addFunction c name).2.name = name := by
  cases hl : alookup name c.functionIndex with
  | some f =>
    have hf := hInv.fIdx name f (alookup_mem hl)
    simp only [addFunction, hl]
    exact ⟨hInv, hf.1, hf.2⟩
  | none =>
    simp only [addFunction, hl]
    refine ⟨⟨hInv.locIds, ?_, hInv.kmem, hInv.locMap, ?_, ?_, hInv.kIdx,
      hInv.vIdx, hInv.pIdx, hInv.jIdx, hInv.aIdx, hInv.kName⟩, ?_, by simp⟩
    · exact ids_snoc PFunction.id c.result.function _ hInv.funIds rfl
    · intro l hl2 ln hln
      exact List.mem_append_left _ (hInv.locFun l hl2 ln hln)
    · intro n g hg
      rcases List.mem_cons.mp hg with he | ht
      · rw [Prod.mk.injEq] at he
        constructor
        · rw [he.2]
          exact List.mem_append_right _ (List.mem_cons_self _ _)
        · rw [he.2, he.1]
      · have hold := hInv.fIdx n g ht
        exact ⟨List.mem_append_left _ hold.1, hold.2⟩
    · exact List.mem_append_right _ (List.mem_cons_self _ _)

theorem addKernelLocation_spec (c : Converter) (m : Mapping)
    (syms : List (Nat × String)) (addr : Nat) (hInv : ConvInv c)
    (hm : m ∈ c.result.mapping) :
    ConvInv (addKernelLocation c m syms addr).1 ∧
    StepExt c (addKernelLocation c m syms addr).1 ∧
    (addKernelLocation c m syms addr).1.frameDropMappingNil = c.frameDropMappingNil ∧
    alookup (kernelSymbolFor syms addr)
        (addKernelLocation c m syms addr).1.kernelLocationIndex
      = some (addKernelLocation c m syms addr).2 := by
  cases hl : alookup (kernelSymbolFor syms addr) c.kernelLocationIndex with
  | some l =>
    simp only [addKernelLocation, hl]
    exact ⟨hInv, StepExt.of_eq rfl, by simp, by simp⟩
  | none =>
    obtain ⟨hInv1, hf, hfname⟩ := addFunction_spec c (kernelSymbolFor syms addr) hInv
    obtain ⟨hfl1, hfl2, hfl3, hfl4, hfl5, hfl6, _, _, _, _, hfl11, hfl12, hfl13,
      hfl14, hfl15⟩ := addFunction_frame c (kernelSymbolFor syms addr)
    have hext1 := addFunction_ext c (kernelSymbolFor syms addr)
    have habs : alookup (kernelSymbolFor syms addr)
        (addFunction c (kernelSymbolFor syms addr)).1.kernelLocationIndex = none := by
      rw [hfl6]; exact hl
    simp only [addKernelLocation, hl]
    refine ⟨?_, ?_, ?_, ?_⟩
    · refine ⟨?_, hInv1.funIds, hInv1.kmem, ?_, ?_, hInv1.fIdx,
        IdxOk_insert hInv1.kIdx habs _, IdxOk_append hInv1.vIdx _,
        IdxOk_append hInv1.pIdx _, IdxOk_append hInv1.jIdx _,
        IdxOk_append hInv1.aIdx _, ?_⟩
      · exact ids_snoc Location.id _ _ hInv1.locIds rfl
      · refine forall_mem_snoc hInv1.locMap ?_
        show m ∈ _
        rw [hfl3]
        exact hm
      · refine forall_mem_snoc hInv1.locFun ?_
        intro ln hln
        rw [List.mem_singleton] at hln
        rw [hln]
        exact hf
      · intro s l2 hl2
        rcases List.mem_cons.mp hl2 with he | ht
        · rw [Prod.mk.injEq] at he
          refine ⟨(addFunction c (kernelSymbolFor syms addr)).2, ?_, ?_⟩
          · rw [he.2]
          · rw [hfname, ← he.1]
        · exact hInv1.kName s l2 ht
    · refine StepExt.trans hext1 ⟨rfl, rfl, rfl, rfl, rfl, rfl, rfl,
        ⟨_, rfl⟩, ⟨[], (List.append_nil _).symm⟩, ⟨[], (List.append_nil _).symm⟩,
        ?_⟩
      intro k l2 h2
      exact alookup_cons_preserve habs h2
    · exact hfl15
    · rw [alookup]
      simp

theorem addVDSOLocation_spec (env : Env) (c : Converter) (pm : ProcessMapping)
    (m : Mapping) (addr : Nat) (hInv : ConvInv c) (hm : m ∈ c.result.mapping) :
    ConvInv (addVDSOLocation env c pm m addr).1 ∧
    StepExt c (addVDSOLocation env c pm m addr).1 ∧
    (addVDSOLocation env c pm m addr).1.frameDropMappingNil = c.frameDropMappingNil := by
  cases hl : alookup (vdsoFunctionName env pm addr) c.vdsoLocationIndex with
  | some l =>
    simp only [addVDSOLocation, hl]
    exact ⟨hInv, StepExt.of_eq rfl, by simp⟩
  | none =>
    obtain ⟨hInv1, hf, hfname⟩ := addFunction_spec c (vdsoFunctionName env pm addr) hInv
    obtain ⟨hfl1, hfl2, hfl3, hfl4, hfl5, hfl6, hfl7, _, _, _, hfl11, hfl12, hfl13,
      hfl14, hfl15⟩ := addFunction_frame c (vdsoFunctionName env pm addr)
    have hext1 := addFunction_ext c (vdsoFunctionName env pm addr)
    have habs : alookup (vdsoFunctionName env pm addr)
        (addFunction c (vdsoFunctionName env pm addr)).1.vdsoLocationIndex = none := by
      rw [hfl7]; exact hl
    simp only [addVDSOLocation, hl]
    refine ⟨?_, ?_, ?_⟩
    · refine ⟨?_, hInv1.funIds, hInv1.kmem, ?_, ?_, hInv1.fIdx,
        IdxOk_append hInv1.kIdx _, IdxOk_insert hInv1.vIdx habs _,
        IdxOk_append hInv1.pIdx _, IdxOk_append hInv1.jIdx _,
        IdxOk_append hInv1.aIdx _, hInv1.kName⟩
      · exact ids_snoc Location.id _ _ hInv1.locIds rfl
      · refine forall_mem_snoc hInv1.locMap ?_
        show m ∈ _
        rw [hfl3]
        exact hm
      · refine forall_mem_snoc hInv1.locFun ?_
        intro ln hln
        rw [List.mem_singleton] at hln
        rw [hln]
        exact hf
    · exact StepExt.trans hext1 ⟨rfl, rfl, rfl, rfl, rfl, rfl, rfl,
        ⟨_, rfl⟩, ⟨[], (List.append_nil _).symm⟩, ⟨[], (List.append_nil _).symm⟩,
        fun k l h => h⟩
    · exact hfl15

theorem addAddrLocationNoNormalization_spec (c : Converter) (m : Mapping)
    (addr : Nat) (hInv : ConvInv c) (hm : m ∈ c.result.mapping) :
    ConvInv (addAddrLocationNoNormalization c m addr).1 ∧
    StepExt c (addAddrLocationNoNormalization c m addr).1 ∧
    (addAddrLocationNoNormalization c m addr).1.frameDropMappingNil = c.frameDropMappingNil := by
  cases hl : alookup addr c.addrLocationIndex with
  | some l =>
    simp only [addAddrLocationNoNormalization, hl]
    exact ⟨hInv, StepExt.of_eq rfl, by simp⟩
  | none =>
    simp only [addAddrLocationNoNormalization, hl]
    refine ⟨?_, ?_, ?_⟩
    · refine ⟨?_, hInv.funIds, hInv.kmem, ?_, ?_, hInv.fIdx,
        IdxOk_append hInv.kIdx _, IdxOk_append hInv.vIdx _,
        IdxOk_append hInv.pIdx _, IdxOk_append hInv.jIdx _,
        IdxOk_insert hInv.aIdx hl _, hInv.kName⟩
      · exact ids_snoc Location.id _ _ hInv.locIds rfl
      · exact forall_mem_snoc hInv.locMap hm
      · refine forall_mem_snoc hInv.locFun ?_
        intro ln hln
        exact absurd hln (List.not_mem_nil ln)
    · exact ⟨rfl, rfl, rfl, rfl, rfl, rfl, rfl,
        ⟨_, rfl⟩, ⟨[], (List.append_nil _).symm⟩, ⟨[], (List.append_nil _).symm⟩,
        fun k l h => h⟩
    · trivial

theorem addAddrLocation_spec (env : Env) (c : Converter) (pm : ProcessMapping)
    (m : Mapping) (addr : Nat) (hInv : ConvInv c) (hm : m ∈ c.result.mapping) :
    ConvInv (addAddrLocation env c pm m addr).1 ∧
    StepExt c (addAddrLocation env c pm m addr).1 ∧
    (addAddrLocation env c pm m addr).1.frameDropMappingNil = c.frameDropMappingNil := by
  unfold addAddrLocation
  exact addAddrLocationNoNormalization_spec c m _ hInv hm

theorem addPerfMapLocation_spec (env : Env) (c : Converter) (m : Mapping)
    (addr : Nat) (hInv : ConvInv c) (hm : m ∈ c.result.mapping) :
    ConvInv (addPerfMapLocation env c m addr).1 ∧
    StepExt c (addPerfMapLocation env c m addr).1 ∧
    (addPerfMapLocation env c m addr).1.frameDropMappingNil = c.frameDropMappingNil := by
  cases hd : c.disableJITSymbolization with
  | true =>
    simp only [addPerfMapLocation, hd, if_true]
    exact addAddrLocationNoNormalization_spec c m addr hInv hm
  | false =>
    simp only [addPerfMapLocation, hd, Bool.false_eq_true, if_false]
    split
    · exact addAddrLocationNoNormalization_spec c m addr hInv hm
    · rename_i perfMap hpm
      split
      · exact addAddrLocationNoNormalization_spec c m addr hInv hm
      · rename_i symbol hsym
        split
        · rename_i l hl
          exact ⟨hInv, StepExt.of_eq rfl, rfl⟩
        · rename_i hl
          obtain ⟨hInv1, hf, hfname⟩ := addFunction_spec c symbol hInv
          obtain ⟨hfl1, hfl2, hfl3, hfl4, hfl5, hfl6, hfl7, hfl8, _, _, hfl11,
            hfl12, hfl13, hfl14, hfl15⟩ := addFunction_frame c symbol
          have hext1 := addFunction_ext c symbol
          have habs : alookup symbol
              (addFunction c symbol).1.perfmapLocationIndex = none := by
            rw [hfl8]; exact hl
          refine ⟨?_, ?_, ?_⟩
          · refine ⟨?_, hInv1.funIds, hInv1.kmem, ?_, ?_, hInv1.fIdx,
              IdxOk_append hInv1.kIdx _, IdxOk_append hInv1.vIdx _,
              IdxOk_insert hInv1.pIdx habs _, IdxOk_append hInv1.jIdx _,
              IdxOk_append hInv1.aIdx _, hInv1.kName⟩
            · exact ids_snoc Location.id _ _ hInv1.locIds rfl
            · refine forall_mem_snoc hInv1.locMap ?_
              show m ∈ _
              rw [hfl3]
              exact hm
            · refine forall_mem_snoc hInv1.locFun ?_
              intro ln hln
              rw [List.mem_singleton] at hln
              rw [hln]
              exact hf
          · exact StepExt.trans hext1 ⟨rfl, rfl, rfl, rfl, rfl, rfl, rfl,
              ⟨_, rfl⟩, ⟨[], (List.append_nil _).symm⟩,
              ⟨[], (List.append_nil _).symm⟩, fun k l h => h⟩
          · exact hfl15

theorem addJITDumpLocation_spec (env : Env) (c : Converter) (m : Mapping)
    (addr : Nat) (path : String) (hInv : ConvInv c) (hm : m ∈ c.result.mapping) :
    ConvInv (addJITDumpLocation env c m addr path).1 ∧
    StepExt c (addJITDumpLocation env c m addr path).1 ∧
    (addJITDumpLocation env c m addr path).1.frameDropMappingNil = c.frameDropMappingNil := by
  cases hd : c.disableJITSymbolization with
  | true =>
    simp only [addJITDumpLocation, hd, if_true]
    exact addAddrLocationNoNormalization_spec c m addr hInv hm
  | false =>
    simp only [addJITDumpLocation, hd, Bool.false_eq_true, if_false]
    split
    · exact addAddrLocationNoNormalization_spec c m addr hInv hm
    · rename_i jitdump hjd
      split
      · exact addAddrLocationNoNormalization_spec c m addr hInv hm
      · rename_i symbol hsym
        split
        · rename_i l hl
          exact ⟨hInv, StepExt.of_eq rfl, rfl⟩
        · rename_i hl
          obtain ⟨hInv1, hf, hfname⟩ := addFunction_spec c symbol hInv
          obtain ⟨hfl1, hfl2, hfl3, hfl4, hfl5, hfl6, hfl7, hfl8, hfl9, _, hfl11,
            hfl12, hfl13, hfl14, hfl15⟩ := addFunction_frame c symbol
          have hext1 := addFunction_ext c symbol
          have habs : alookup symbol
              (addFunction c symbol).1.jitdumpLocationIndex = none := by
            rw [hfl9]; exact hl
          refine ⟨?_, ?_, ?_⟩
          · refine ⟨?_, hInv1.funIds, hInv1.kmem, ?_, ?_, hInv1.fIdx,
              IdxOk_append hInv1.kIdx _, IdxOk_append hInv1.vIdx _,
              IdxOk_append hInv1.pIdx _, IdxOk_insert hInv1.jIdx habs _,
              IdxOk_append hInv1.aIdx _, hInv1.kName⟩
            · exact ids_snoc Location.id _ _ hInv1.locIds rfl
            · refine forall_mem_snoc hInv1.locMap ?_
              show m ∈ _
              rw [hfl3]
              exact hm
            · refine forall_mem_snoc hInv1.locFun ?_
              intro ln hln
              rw [List.mem_singleton] at hln
              rw [hln]
              exact hf
          · exact StepExt.trans hext1 ⟨rfl, rfl, rfl, rfl, rfl, rfl, rfl,
              ⟨_, rfl⟩, ⟨[], (List.append_nil _).symm⟩,
              ⟨[], (List.append_nil _).symm⟩, fun k l h => h⟩
          · exact hfl15

theorem routeUserFrame_spec (env : Env) (c : Converter) (pm : ProcessMapping)
    (m : Mapping) (addr : Nat) (hInv : ConvInv c) (hm : m ∈ c.result.mapping) :
    ConvInv (routeUserFrame env c pm m addr).1 ∧
    StepExt c (routeUserFrame env c pm m addr).1 ∧
    (routeUserFrame env c pm m addr).1.frameDropMappingNil = c.frameDropMappingNil := by
  unfold routeUserFrame
  split
  · exact addVDSOLocation_spec env c pm m addr hInv hm
  · split
    · exact addPerfMapLocation_spec env c m addr hInv hm
    · split
      · exact addJITDumpLocation_spec env c m addr m.file hInv hm
      · exact addAddrLocation_spec env c pm m addr hInv hm

/-!
Section: Lemmas about `mappingForAddr` and frame counting
-/

theorem mappingForAddrAux_spec (addr : Nat) :
    ∀ (l : List Mapping) (i j : Nat), mappingForAddrAux addr i l = some j →
      ∃ k, k < l.length ∧ j = i + k ∧
        (∃ m, l[k]? = some m ∧ m.start ≤ addr ∧ addr < m.limit) ∧
        ∀ k2 m2, k2 < k → l[k2]? = some m2 →
          ¬(m2.start ≤ addr ∧ addr < m2.limit) := by
  intro l
  induction l with
  | nil => intro i j h; simp [mappingForAddrAux] at h
  | cons m t ih =>
    intro i j h
    rw [mappingForAddrAux] at h
    split at h
    · rename_i hc
      cases h
      exact ⟨0, Nat.succ_pos _, (Nat.add_zero i).symm,
        ⟨m, by simp, hc.1, hc.2⟩,
        fun k2 m2 hk2 _ => absurd hk2 (Nat.not_lt_zero k2)⟩
    · rename_i hc
      obtain ⟨k, hk, hj, ⟨m2, hm2, hc1, hc2⟩, hfirst⟩ := ih (i + 1) j h
      refine ⟨k + 1, by simpa using Nat.succ_lt_succ hk, by omega,
        ⟨m2, by simpa using hm2, hc1, hc2⟩, ?_⟩
      intro k2 m3 hk2 hm3
      cases k2 with
      | zero =>
        simp at hm3
        rw [← hm3]
        exact hc
      | succ k3 =>
        exact hfirst k3 m3 (by omega) (by simpa using hm3)

theorem mappingForAddr_spec (ms : List Mapping) (addr i : Nat)
    (h : mappingForAddr ms addr = some i) :
    i < ms.length ∧
    (∃ m, ms[i]? = some m ∧ m.start ≤ addr ∧ addr < m.limit) ∧
    ∀ j mj, j < i → ms[j]? = some mj → ¬(mj.start ≤ addr ∧ addr < mj.limit) := by
  obtain ⟨k, hk, hj, hm, hfirst⟩ := mappingForAddrAux_spec addr ms 0 i h
  have hik : i = k := by omega
  subst hik
  exact ⟨hk, hm, hfirst⟩

theorem mappingForAddr_lt {ms : List Mapping} {addr i : Nat}
    (h : mappingForAddr ms addr = some i) : i < ms.length :=
  (mappingForAddr_spec ms addr i h).1

theorem mappingForAddr_start (m : Mapping) (h : m.start < m.limit) :
    mappingForAddr [m] m.start = some 0 := by
  simp [mappingForAddr, mappingForAddrAux, h]

theorem mappingForAddr_limit (m : Mapping) :
    mappingForAddr [m] m.limit = none := by
  simp [mappingForAddr, mappingForAddrAux, Nat.lt_irrefl]

theorem getD_mem_of_lt {α : Type} [Inhabited α] (l : List α) (i : Nat)
    (h : i < l.length) : l.getD i default ∈ l := by
  rw [List.getD_eq_getElem l default h]
  exact List.getElem_mem h

theorem countP_pos_add_neg {α : Type} (p : α → Bool) (l : List α) :
    l.countP p + l.countP (fun a => !(p a)) = l.length := by
  induction l with
  | nil => simp
  | cons x t ih =>
    cases hp : p x <;> simp [List.countP_cons, hp] <;> omega

/-!
Section: Loop specifications
-/

theorem processKernelStack_spec (syms : List (Nat × String)) :
    ∀ (stack : List Nat) (c : Converter) (acc : List Location), ConvInv c →
      ConvInv (processKernelStack syms c acc stack).1 ∧
      StepExt c (processKernelStack syms c acc stack).1 ∧
      (processKernelStack syms c acc stack).1.frameDropMappingNil =
        c.frameDropMappingNil ∧
      ∃ news : List Location, (processKernelStack syms c acc stack).2 = acc ++ news ∧
        news.length = stack.length ∧
        ∀ (ki a : Nat), stack[ki]? = some a →
          ∃ l : Location, news[ki]? = some l ∧
            alookup (kernelSymbolFor syms a)
              (processKernelStack syms c acc stack).1.kernelLocationIndex
              = some l := by
  intro stack
  induction stack with
  | nil =>
    intro c acc hInv
    refine ⟨hInv, StepExt.of_eq rfl, rfl, [], (List.append_nil acc).symm, rfl, ?_⟩
    intro ki a h
    simp at h
  | cons addr rest ih =>
    intro c acc hInv
    obtain ⟨hInv1, hext1, hcnt1, hlk1⟩ :=
      addKernelLocation_spec c c.kernelMapping syms addr hInv hInv.kmem
    obtain ⟨hInv2, hext2, hcnt2, news, hnews, hlen, hchar⟩ :=
      ih (addKernelLocation c c.kernelMapping syms addr).1
        (acc ++ [(addKernelLocation c c.kernelMapping syms addr).2]) hInv1
    simp only [processKernelStack]
    refine ⟨hInv2, StepExt.trans hext1 hext2, hcnt2.trans hcnt1,
      (addKernelLocation c c.kernelMapping syms addr).2 :: news, ?_, ?_, ?_⟩
    · rw [hnews, List.append_assoc, List.singleton_append]
    · simp [hlen]
    · intro ki a h
      cases ki with
      | zero =>
        have ha : addr = a := by simpa using h
        subst ha
        refine ⟨(addKernelLocation c c.kernelMapping syms addr).2, by simp, ?_⟩
        exact hext2.kmono _ _ hlk1
      | succ ki2 =>
        have h2 : rest[ki2]? = some a := by simpa using h
        obtain ⟨l, hl, hlook⟩ := hchar ki2 a h2
        exact ⟨l, by simpa using hl, hlook⟩

theorem processUserStack_spec (env : Env) :
    ∀ (stack : List Nat) (c : Converter) (acc : List Location), ConvInv c →
      ConvInv (processUserStack env c acc stack).1 ∧
      StepExt c (processUserStack env c acc stack).1 ∧
      (∃ news : List Location,
        (processUserStack env c acc stack).2 = acc ++ news ∧
        news.length = stack.countP
          (fun a => (mappingForAddr c.result.mapping a).isSome)) ∧
      (processUserStack env c acc stack).1.frameDropMappingNil =
        c.frameDropMappingNil + stack.countP
          (fun a => (mappingForAddr c.result.mapping a).isNone) := by
  intro stack
  induction stack with
  | nil =>
    intro c acc hInv
    exact ⟨hInv, StepExt.of_eq rfl,
      ⟨[], (List.append_nil acc).symm, by simp⟩, by simp [processUserStack]⟩
  | cons addr rest ih =>
    intro c acc hInv
    cases hm : mappingForAddr c.result.mapping addr with
    | none =>
      have hInv2 : ConvInv { c with frameDropMappingNil := c.frameDropMappingNil + 1 } :=
        ⟨hInv.locIds, hInv.funIds, hInv.kmem, hInv.locMap, hInv.locFun, hInv.fIdx,
          hInv.kIdx, hInv.vIdx, hInv.pIdx, hInv.jIdx, hInv.aIdx, hInv.kName⟩
      obtain ⟨hI, hE, hN, hC⟩ :=
        ih { c with frameDropMappingNil := c.frameDropMappingNil + 1 } acc hInv2
      have hstep : StepExt c
          { c with frameDropMappingNil := c.frameDropMappingNil + 1 } :=
        ⟨rfl, rfl, rfl, rfl, rfl, rfl, rfl,
          ⟨[], (List.append_nil _).symm⟩, ⟨[], (List.append_nil _).symm⟩,
          ⟨[], (List.append_nil _).symm⟩, fun k l h => h⟩
      simp only [processUserStack, hm]
      refine ⟨hI, StepExt.trans hstep hE, ?_, ?_⟩
      · obtain ⟨news, h1, h2⟩ := hN
        refine ⟨news, h1, ?_⟩
        have h2c : news.length = rest.countP
            (fun a => (mappingForAddr c.result.mapping a).isSome) := h2
        rw [h2c, List.countP_cons]
        simp [hm]
      · have hC2 : (processUserStack env
            { c with frameDropMappingNil := c.frameDropMappingNil + 1 } acc rest).1.frameDropMappingNil
            = (c.frameDropMappingNil + 1) + rest.countP
              (fun a => (mappingForAddr c.result.mapping a).isNone) := hC
        rw [hC2, List.countP_cons]
        simp [hm]
        omega
    | some i =>
      have hlt : i < c.result.mapping.length := mappingForAddr_lt hm
      have hmem : c.result.mapping.getD i default ∈ c.result.mapping :=
        getD_mem_of_lt c.result.mapping i hlt
      obtain ⟨hIr, hEr, hCr⟩ := routeUserFrame_spec env c
        (c.mappings.getD i default) (c.result.mapping.getD i default) addr hInv hmem
      obtain ⟨hI, hE, hN, hC⟩ := ih
        (routeUserFrame env c (c.mappings.getD i default)
          (c.result.mapping.getD i default) addr).1
        (acc ++ [(routeUserFrame env c (c.mappings.getD i default)
          (c.result.mapping.getD i default) addr).2]) hIr
      rw [hEr.map_eq] at hN hC
      simp only [processUserStack, hm]
      refine ⟨hI, StepExt.trans hEr hE, ?_, ?_⟩
      · obtain ⟨news, h1, h2⟩ := hN
        refine ⟨(routeUserFrame env c (c.mappings.getD i default)
          (c.result.mapping.getD i default) addr).2 :: news, ?_, ?_⟩
        · rw [h1, List.append_assoc, List.singleton_append]
        · rw [List.length_cons, h2, List.countP_cons]
          simp [hm]
      · rw [hC, hCr, List.countP_cons]
        simp [hm]

/-!
Section: The sample table is untouched by frame processing
-/

theorem addKernelLocation_sample_eq (c : Converter) (m : Mapping)
    (syms : List (Nat × String)) (addr : Nat) :
    (addKernelLocation c m syms addr).1.result.sample = c.result.sample := by
  cases hl : alookup (kernelSymbolFor syms addr) c.kernelLocationIndex with
  | some l => simp [addKernelLocation, hl]
  | none =>
    simp only [addKernelLocation, hl]
    exact (addFunction_frame c (kernelSymbolFor syms addr)).2.1

theorem addVDSOLocation_sample_eq (env : Env) (c : Converter)
    (pm : ProcessMapping) (m : Mapping) (addr : Nat) :
    (addVDSOLocation env c pm m addr).1.result.sample = c.result.sample := by
  cases hl : alookup (vdsoFunctionName env pm addr) c.vdsoLocationIndex with
  | some l => simp [addVDSOLocation, hl]
  | none =>
    simp only [addVDSOLocation, hl]
    exact (addFunction_frame c (vdsoFunctionName env pm addr)).2.1

theorem addAddrLocationNoNormalization_sample_eq (c : Converter) (m : Mapping)
    (addr : Nat) :
    (addAddrLocationNoNormalization c m addr).1.result.sample = c.result.sample := by
  cases hl : alookup addr c.addrLocationIndex <;>
    simp [addAddrLocationNoNormalization, hl]

theorem addAddrLocation_sample_eq (env : Env) (c : Converter)
    (pm : ProcessMapping) (m : Mapping) (addr : Nat) :
    (addAddrLocation env c pm m addr).1.result.sample = c.result.sample := by
  unfold addAddrLocation
  exact addAddrLocationNoNormalization_sample_eq c m _

theorem addPerfMapLocation_sample_eq (env : Env) (c : Converter) (m : Mapping)
    (addr : Nat) :
    (addPerfMapLocation env c m addr).1.result.sample = c.result.sample := by
  unfold addPerfMapLocation
  split
  · exact addAddrLocationNoNormalization_sample_eq c m addr
  · split
    · exact addAddrLocationNoNormalization_sample_eq c m addr
    · rename_i perfMap hpm
      split
      · exact addAddrLocationNoNormalization_sample_eq c m addr
      · rename_i symbol hsym
        split
        · rfl
        · rename_i hl
          exact (addFunction_frame c symbol).2.1

theorem addJITDumpLocation_sample_eq (env : Env) (c : Converter) (m : Mapping)
    (addr : Nat) (path : String) :
    (addJITDumpLocation env c m addr path).1.result.sample = c.result.sample := by
  unfold addJITDumpLocation
  split
  · exact addAddrLocationNoNormalization_sample_eq c m addr
  · split
    · exact addAddrLocationNoNormalization_sample_eq c m addr
    · rename_i jitdump hjd
      split
      · exact addAddrLocationNoNormalization_sample_eq c m addr
      · rename_i symbol hsym
        split
        · rfl
        · rename_i hl
          exact (addFunction_frame c symbol).2.1

theorem routeUserFrame_sample_eq (env : Env) (c : Converter)
    (pm : ProcessMapping) (m : Mapping) (addr : Nat) :
    (routeUserFrame env c pm m addr).1.result.sample = c.result.sample := by
  unfold routeUserFrame
  split
  · exact addVDSOLocation_sample_eq env c pm m addr
  · split
    · exact addPerfMapLocation_sample_eq env c m addr
    · split
      · exact addJITDumpLocation_sample_eq env c m addr m.file
      · exact addAddrLocation_sample_eq env c pm m addr

theorem processKernelStack_sample_eq (syms : List (Nat × String)) :
    ∀ (stack : List Nat) (c : Converter) (acc : List Location),
      (processKernelStack syms c acc stack).1.result.sample = c.result.sample := by
  intro stack
  induction stack with
  | nil => intro c acc; rfl
  | cons addr rest ih =>
    intro c acc
    simp only [processKernelStack]
    exact (ih _ _).trans (addKernelLocation_sample_eq c c.kernelMapping syms addr)

theorem processUserStack_sample_eq (env : Env) :
    ∀ (stack : List Nat) (c : Converter) (acc : List Location),
      (processUserStack env c acc stack).1.result.sample = c.result.sample := by
  intro stack
  induction stack with
  | nil => intro c acc; rfl
  | cons addr rest ih =>
    intro c acc
    cases hm : mappingForAddr c.result.mapping addr with
    | none =>
      simp only [processUserStack, hm]
      exact ih _ _
    | some i =>
      simp only [processUserStack, hm]
      exact (ih _ _).trans (routeUserFrame_sample_eq env c _ _ addr)

theorem processSample_spec (env : Env) (syms : List (Nat × String)) (c : Converter)
    (s : RawSample) (hInv : ConvInv c) :
    ConvInv (processSample env syms c s) ∧
    StepExt c (processSample env syms c s) ∧
    (processSample env syms c s).frameDropMappingNil = c.frameDropMappingNil +
      s.userStack.countP (fun a => (mappingForAddr c.result.mapping a).isNone) ∧
    ∃ smp : Sample,
      (processSample env syms c s).result.sample = c.result.sample ++ [smp] ∧
      smp.value = [uint64ToInt64 s.value] ∧
      smp.location.length = s.kernelStack.length +
        s.userStack.countP (fun a => (mappingForAddr c.result.mapping a).isSome) ∧
      ∀ (ki a : Nat), s.kernelStack[ki]? = some a →
        ∃ l : Location, smp.location[ki]? = some l ∧
          alookup (kernelSymbolFor syms a)
            (processSample env syms c s).kernelLocationIndex = some l := by
  obtain ⟨hIk, hEk, hCk, news, hnews, hlen, hchar⟩ :=
    processKernelStack_spec syms s.kernelStack c [] hInv
  obtain ⟨hIu, hEu, ⟨unews, hu1, hu2⟩, hCu⟩ :=
    processUserStack_spec env s.userStack
      (processKernelStack syms c [] s.kernelStack).1
      (processKernelStack syms c [] s.kernelStack).2 hIk
  rw [hEk.map_eq] at hu2 hCu
  have hsampk := processKernelStack_sample_eq syms s.kernelStack c []
  have hsampu := processUserStack_sample_eq env s.userStack
    (processKernelStack syms c [] s.kernelStack).1
    (processKernelStack syms c [] s.kernelStack).2
  simp only [processSample]
  refine ⟨?_, ?_, ?_, ?_⟩
  · exact ⟨hIu.locIds, hIu.funIds, hIu.kmem, hIu.locMap, hIu.locFun, hIu.fIdx,
      hIu.kIdx, hIu.vIdx, hIu.pIdx, hIu.jIdx, hIu.aIdx, hIu.kName⟩
  · refine StepExt.trans (StepExt.trans hEk hEu) ?_
    exact ⟨rfl, rfl, rfl, rfl, rfl, rfl, rfl,
      ⟨[], (List.append_nil _).symm⟩, ⟨[], (List.append_nil _).symm⟩,
      ⟨_, rfl⟩, fun k l h => h⟩
  · show (processUserStack env _ _ s.userStack).1.frameDropMappingNil = _
    rw [hCu, hCk]
  · refine ⟨Sample.mk [uint64ToInt64 s.value]
      ((processUserStack env
        (processKernelStack syms c [] s.kernelStack).1
        (processKernelStack syms c [] s.kernelStack).2 s.userStack).2), ?_, rfl, ?_, ?_⟩
    · show (processUserStack env _ _ s.userStack).1.result.sample ++ _ = _
      rw [hsampu, hsampk]
    · show (processUserStack env _ _ s.userStack).2.length = _
      rw [hu1, List.length_append, hnews, List.nil_append, hlen, hu2]
    · intro ki a h
      obtain ⟨l, hl, hlook⟩ := hchar ki a h
      refine ⟨l, ?_, ?_⟩
      · show (processUserStack env _ _ s.userStack).2[ki]? = some l
        rw [hu1, hnews, List.nil_append]
        have hki : ki < news.length := (List.getElem?_eq_some_iff.mp hl).1
        rw [List.getElem?_append]
        rw [if_pos hki]
        exact hl
      · exact hEu.kmono _ _ hlook

theorem convertLoop_spec (env : Env) (syms : List (Nat × String)) :
    ∀ (samples : List RawSample) (c : Converter), ConvInv c →
      ConvInv (convertLoop env syms c samples) ∧
      StepExt c (convertLoop env syms c samples) ∧
      ∃ news : List Sample,
        (convertLoop env syms c samples).result.sample = c.result.sample ++ news ∧
        news.length = samples.length ∧
        ∀ (i : Nat) (s : RawSample), samples[i]? = some s →
          ∃ smp : Sample, news[i]? = some smp ∧
            smp.value = [uint64ToInt64 s.value] ∧
            smp.location.length = s.kernelStack.length +
              s.userStack.countP
                (fun a => (mappingForAddr c.result.mapping a).isSome) ∧
            ∀ (ki a : Nat), s.kernelStack[ki]? = some a →
              ∃ l : Location, smp.location[ki]? = some l ∧
                alookup (kernelSymbolFor syms a)
                  (convertLoop env syms c samples).kernelLocationIndex = some l := by
  intro samples
  induction samples with
  | nil =>
    intro c hInv
    refine ⟨hInv, StepExt.of_eq rfl, [], (List.append_nil _).symm, rfl, ?_⟩
    intro i s h
    simp at h
  | cons s t ih =>
    intro c hInv
    obtain ⟨hIs, hEs, hCs, smp0, hsmp0, hval0, hlen0, hchar0⟩ :=
      processSample_spec env syms c s hInv
    obtain ⟨hI, hE, news, hnews, hlen, hchar⟩ := ih (processSample env syms c s) hIs
    simp only [convertLoop]
    refine ⟨hI, StepExt.trans hEs hE, smp0 :: news, ?_, ?_, ?_⟩
    · rw [hnews, hsmp0, List.append_assoc, List.singleton_append]
    · simp [hlen]
    · intro i s2 h
      cases i with
      | zero =>
        have hs2 : s = s2 := by simpa using h
        subst hs2
        refine ⟨smp0, by simp, hval0, hlen0, ?_⟩
        intro ki a hk
        obtain ⟨l, hl, hlook⟩ := hchar0 ki a hk
        exact ⟨l, hl, hE.kmono _ _ hlook⟩
      | succ i2 =>
        have h2 : t[i2]? = some s2 := by simpa using h
        obtain ⟨smp, h1, h2v, h2len, h2char⟩ := hchar i2 s2 h2
        refine ⟨smp, by simpa using h1, h2v, ?_, h2char⟩
        rw [h2len, hEs.map_eq]

/-!
Section: The freshly constructed converter
-/

theorem convertToPprofAux_ids :
    ∀ (ms : List ProcessMapping) (i : Nat),
      (convertToPprofAux i ms).map Mapping.id = List.range' (i + 1) ms.length := by
  intro ms
  induction ms with
  | nil => intro i; simp [convertToPprofAux]
  | cons m t ih =>
    intro i
    simp only [convertToPprofAux, List.map_cons, List.length_cons]
    rw [List.range'_succ, ih (i + 1)]

theorem convertToPprof_ids (ms : List ProcessMapping) :
    (convertToPprof ms).map Mapping.id = List.range' 1 ms.length :=
  convertToPprofAux_ids ms 0

theorem convertToPprof_length (ms : List ProcessMapping) :
    (convertToPprof ms).length = ms.length := by
  have h := congrArg List.length (convertToPprof_ids ms)
  simpa using h

theorem NewConverter_inv (djit : Bool) (pid : Nat) (ms : List ProcessMapping)
    (ct now per : Int) : ConvInv (NewConverter djit pid ms ct now per) := by
  constructor <;> simp [NewConverter, IdxOk]

theorem NewConverter_mapping_ids (djit : Bool) (pid : Nat)
    (ms : List ProcessMapping) (ct now per : Int) :
    (NewConverter djit pid ms ct now per).result.mapping.map Mapping.id =
      List.range' 1 (NewConverter djit pid ms ct now per).result.mapping.length := by
  have h1 : (convertToPprof ms).map Mapping.id
      = List.range' 1 (convertToPprof ms).length := by
    rw [convertToPprof_length]
    exact convertToPprof_ids ms
  exact ids_snoc Mapping.id (convertToPprof ms) _ h1 rfl

/-!
Section: Claim theorems for the profile converter
-/

/-- Claim C2: for any profile produced by `Convert`, the ids in the Mapping,
Location, and Function tables each form a dense 1-based sequence (unique,
consecutive, starting at 1), every Location's mapping is present in the
profile's Mapping table, and every Function referenced by a Location's line is
present in the Function table. -/
theorem convert_table_integrity (env : Env) (djit : Bool) (pid : Nat)
    (ms : List ProcessMapping) (ct now per : Int) (samples : List RawSample) :
    ((Convert env (NewConverter djit pid ms ct now per) samples).1.mapping.map Mapping.id
      = List.range' 1
          (Convert env (NewConverter djit pid ms ct now per) samples).1.mapping.length) ∧
    ((Convert env (NewConverter djit pid ms ct now per) samples).1.location.map Location.id
      = List.range' 1
          (Convert env (NewConverter djit pid ms ct now per) samples).1.location.length) ∧
    ((Convert env (NewConverter djit pid ms ct now per) samples).1.function.map PFunction.id
      = List.range' 1
          (Convert env (NewConverter djit pid ms ct now per) samples).1.function.length) ∧
    (∀ l ∈ (Convert env (NewConverter djit pid ms ct now per) samples).1.location,
      l.mapping ∈ (Convert env (NewConverter djit pid ms ct now per) samples).1.mapping) ∧
    (∀ l ∈ (Convert env (NewConverter djit pid ms ct now per) samples).1.location,
      ∀ ln ∈ l.line,
        ln.function ∈ (Convert env (NewConverter djit pid ms ct now per) samples).1.function) := by
  obtain ⟨hI, hE, _⟩ := convertLoop_spec env (convertKernelSymbols env) samples
    (NewConverter djit pid ms ct now per) (NewConverter_inv djit pid ms ct now per)
  refine ⟨?_, hI.locIds, hI.funIds, hI.locMap, hI.locFun⟩
  show (convertLoop env (convertKernelSymbols env)
        (NewConverter djit pid ms ct now per) samples).result.mapping.map Mapping.id
      = List.range' 1 (convertLoop env (convertKernelSymbols env)
        (NewConverter djit pid ms ct now per) samples).result.mapping.length
  rw [hE.map_eq]
  exact NewConverter_mapping_ids djit pid ms ct now per

/-- Claim C3: the profile's mapping table is the converted process mappings in
order plus one synthetic kernel mapping appended last, with file
`"[kernel.kallsyms]"` and id `len(process_mappings) + 1`; the kernel mapping is
present in every produced profile, even with no kernel frames. -/
theorem convert_kernel_mapping_present (env : Env) (djit : Bool) (pid : Nat)
    (ms : List ProcessMapping) (ct now per : Int) (samples : List RawSample) :
    (Convert env (NewConverter djit pid ms ct now per) samples).1.mapping
      = convertToPprof ms ++ [(NewConverter djit pid ms ct now per).kernelMapping] ∧
    (NewConverter djit pid ms ct now per).kernelMapping.file = "[kernel.kallsyms]" ∧
    (NewConverter djit pid ms ct now per).kernelMapping.id = ms.length + 1 ∧
    (NewConverter djit pid ms ct now per).kernelMapping ∈
      (Convert env (NewConverter djit pid ms ct now per) samples).1.mapping := by
  obtain ⟨hI, hE, _⟩ := convertLoop_spec env (convertKernelSymbols env) samples
    (NewConverter djit pid ms ct now per) (NewConverter_inv djit pid ms ct now per)
  have hmap : (Convert env (NewConverter djit pid ms ct now per) samples).1.mapping
      = convertToPprof ms ++ [(NewConverter djit pid ms ct now per).kernelMapping] := by
    show (convertLoop env (convertKernelSymbols env)
        (NewConverter djit pid ms ct now per) samples).result.mapping = _
    rw [hE.map_eq]
    rfl
  refine ⟨hmap, by rfl, ?_, ?_⟩
  · show (convertToPprof ms).length + 1 = ms.length + 1
    rw [convertToPprof_length]
  · rw [hmap]
    exact List.mem_append_right _ (List.mem_cons_self _ _)

/-- Claim C6 (amended): `duration_nanos` is set at converter construction to
the time elapsed from the capture timestamp to construction
(`int64(time.Since(captureTime))`), and `Convert` leaves it unchanged. -/
theorem duration_set_at_construction (env : Env) (djit : Bool) (pid : Nat)
    (ms : List ProcessMapping) (ct now per : Int) (samples : List RawSample) :
    (NewConverter djit pid ms ct now per).result.durationNanos = now - ct ∧
    (Convert env (NewConverter djit pid ms ct now per) samples).1.durationNanos
      = now - ct := by
  obtain ⟨hI, hE, _⟩ := convertLoop_spec env (convertKernelSymbols env) samples
    (NewConverter djit pid ms ct now per) (NewConverter_inv djit pid ms ct now per)
  refine ⟨by rfl, ?_⟩
  show (convertLoop env (convertKernelSymbols env)
      (NewConverter djit pid ms ct now per) samples).result.durationNanos = _
  rw [hE.dur_eq]
  rfl

/-- Claim C1: within one conversion, each dedup key (kernel symbol name, VDSO
function name, JIT symbol name — perf-map or jitdump —, normalized native
address) is bound to exactly one Location; in particular, for any two raw
samples whose kernel stacks share an address `a`, the resulting profile
contains exactly one kernel Location for `a` and both samples reference it. -/
theorem convert_dedup_unique (env : Env) (djit : Bool) (pid : Nat)
    (ms : List ProcessMapping) (ct now per : Int) (samples : List RawSample)
    (i j ki kj : Nat) (si sj : RawSample) (a : Nat)
    (hi : samples[i]? = some si) (hj : samples[j]? = some sj)
    (hki : si.kernelStack[ki]? = some a) (hkj : sj.kernelStack[kj]? = some a) :
    (∀ k l l2,
      (k, l) ∈ (convertFinal env (NewConverter djit pid ms ct now per) samples).kernelLocationIndex →
      (k, l2) ∈ (convertFinal env (NewConverter djit pid ms ct now per) samples).kernelLocationIndex →
      l = l2) ∧
    (∀ k l l2,
      (k, l) ∈ (convertFinal env (NewConverter djit pid ms ct now per) samples).vdsoLocationIndex →
      (k, l2) ∈ (convertFinal env (NewConverter djit pid ms ct now per) samples).vdsoLocationIndex →
      l = l2) ∧
    (∀ k l l2,
      (k, l) ∈ (convertFinal env (NewConverter djit pid ms ct now per) samples).perfmapLocationIndex →
      (k, l2) ∈ (convertFinal env (NewConverter djit pid ms ct now per) samples).perfmapLocationIndex →
      l = l2) ∧
    (∀ k l l2,
      (k, l) ∈ (convertFinal env (NewConverter djit pid ms ct now per) samples).jitdumpLocationIndex →
      (k, l2) ∈ (convertFinal env (NewConverter djit pid ms ct now per) samples).jitdumpLocationIndex →
      l = l2) ∧
    (∀ k l l2,
      (k, l) ∈ (convertFinal env (NewConverter djit pid ms ct now per) samples).addrLocationIndex →
      (k, l2) ∈ (convertFinal env (NewConverter djit pid ms ct now per) samples).addrLocationIndex →
      l = l2) ∧
    ∃ l : Location,
      ((Convert env (NewConverter djit pid ms ct now per) samples).1.sample[i]?.bind
        (fun smp => smp.location[ki]?)) = some l ∧
      ((Convert env (NewConverter djit pid ms ct now per) samples).1.sample[j]?.bind
        (fun smp => smp.location[kj]?)) = some l ∧
      ((Convert env (NewConverter djit pid ms ct now per) samples).1.location.filter
        (fun l2 => l2.id == l.id)).length = 1 := by
  obtain ⟨hI, hE, news, hnews, hlen, hchar⟩ :=
    convertLoop_spec env (convertKernelSymbols env) samples
      (NewConverter djit pid ms ct now per) (NewConverter_inv djit pid ms ct now per)
  have hs : (Convert env (NewConverter djit pid ms ct now per) samples).1.sample = news := by
    show (convertLoop env (convertKernelSymbols env)
        (NewConverter djit pid ms ct now per) samples).result.sample = news
    rw [hnews]
    exact List.nil_append news
  refine ⟨hI.kIdx.2, hI.vIdx.2, hI.pIdx.2, hI.jIdx.2, hI.aIdx.2, ?_⟩
  obtain ⟨smpi, h1i, _, _, hchari⟩ := hchar i si hi
  obtain ⟨smpj, h1j, _, _, hcharj⟩ := hchar j sj hj
  obtain ⟨li, hli, hlooki⟩ := hchari ki a hki
  obtain ⟨lj, hlj, hlookj⟩ := hcharj kj a hkj
  have hij : li = lj := by
    have := hlooki.symm.trans hlookj
    exact Option.some.inj this
  refine ⟨li, ?_, ?_, ?_⟩
  · rw [hs, h1i]
    simpa using hli
  · rw [hs, h1j]
    rw [← hij] at hlj
    simpa using hlj
  · have hmem : li ∈ (convertLoop env (convertKernelSymbols env)
        (NewConverter djit pid ms ct now per) samples).result.location :=
      hI.kIdx.1 _ _ (alookup_mem hlooki)
    exact filter_id_singleton hI.locIds hmem

/-- Claim C4: a user-stack address is routed to the first profile mapping
whose half-open `[start, limit)` range contains it — an address equal to a
(nonempty) mapping's start resolves to it, an address equal to its limit does
not — and when no mapping contains the address the frame is skipped entirely
(for a single raw sample with exactly one unmapped user frame, the emitted
sample has one location fewer than the input stacks have frames) while the
`mapping_nil` frame-drop counter increments by one. -/
theorem user_frame_first_mapping_and_drop :
    (∀ (msL : List Mapping) (addr i : Nat), mappingForAddr msL addr = some i →
      i < msL.length ∧
      (∃ m, msL[i]? = some m ∧ m.start ≤ addr ∧ addr < m.limit) ∧
      ∀ j mj, j < i → msL[j]? = some mj →
        ¬(mj.start ≤ addr ∧ addr < mj.limit)) ∧
    (∀ m : Mapping, m.start < m.limit → mappingForAddr [m] m.start = some 0) ∧
    (∀ m : Mapping, mappingForAddr [m] m.limit = none) ∧
    (∀ (env : Env) (djit : Bool) (pid : Nat) (ms : List ProcessMapping)
        (ct now per : Int) (s : RawSample),
      s.userStack.countP (fun a =>
        (mappingForAddr (NewConverter djit pid ms ct now per).result.mapping a).isNone) = 1 →
      ∃ smp : Sample,
        (Convert env (NewConverter djit pid ms ct now per) [s]).1.sample = [smp] ∧
        smp.location.length = s.kernelStack.length + s.userStack.length - 1 ∧
        (convertFinal env (NewConverter djit pid ms ct now per) [s]).frameDropMappingNil
          = 1) := by
  refine ⟨mappingForAddr_spec, mappingForAddr_start, mappingForAddr_limit, ?_⟩
  intro env djit pid ms ct now per s hcount
  obtain ⟨hI, hE, hC, smp, hsmp, hval, hlen, hchar⟩ :=
    processSample_spec env (convertKernelSymbols env)
      (NewConverter djit pid ms ct now per) s (NewConverter_inv djit pid ms ct now per)
  have hfun : (fun a => !((mappingForAddr
        (NewConverter djit pid ms ct now per).result.mapping a).isSome))
      = (fun a => (mappingForAddr
        (NewConverter djit pid ms ct now per).result.mapping a).isNone) := by
    funext a
    cases mappingForAddr (NewConverter djit pid ms ct now per).result.mapping a <;> rfl
  have hsum := countP_pos_add_neg (fun a =>
    (mappingForAddr (NewConverter djit pid ms ct now per).result.mapping a).isSome)
    s.userStack
  rw [hfun, hcount] at hsum
  refine ⟨smp, ?_, ?_, ?_⟩
  · show (processSample env (convertKernelSymbols env)
        (NewConverter djit pid ms ct now per) s).result.sample = [smp]
    rw [hsmp]
    exact List.nil_append [smp]
  · rw [hlen]
    omega
  · show (processSample env (convertKernelSymbols env)
        (NewConverter djit pid ms ct now per) s).frameDropMappingNil = 1
    rw [hC, hcount]
    rfl

/-- Claim C5: `Convert` never fails as a whole due to symbolization errors:
when the kernel-symbol resolver errors, the empty symbol map is substituted,
every kernel-stack address yields a Location whose single line's function is
named the literal `"not found"`, and `Convert` still returns its profile with
a nil error. -/
theorem convert_symbolization_fail_open (env : Env) (djit : Bool) (pid : Nat)
    (ms : List ProcessMapping) (ct now per : Int) (samples : List RawSample)
    (herr : env.kernelSymbolsResult = Except.error ()) :
    (Convert env (NewConverter djit pid ms ct now per) samples).2 = none ∧
    ∀ (i ki : Nat) (si : RawSample) (a : Nat),
      samples[i]? = some si → si.kernelStack[ki]? = some a →
      ∃ (smp : Sample) (l : Location) (f : PFunction),
        (Convert env (NewConverter djit pid ms ct now per) samples).1.sample[i]?
          = some smp ∧
        smp.location[ki]? = some l ∧
        l.line = [{ function := f }] ∧
        f.name = "not found" := by
  obtain ⟨hI, hE, news, hnews, hlen, hchar⟩ :=
    convertLoop_spec env (convertKernelSymbols env) samples
      (NewConverter djit pid ms ct now per) (NewConverter_inv djit pid ms ct now per)
  have hs : (Convert env (NewConverter djit pid ms ct now per) samples).1.sample = news := by
    show (convertLoop env (convertKernelSymbols env)
        (NewConverter djit pid ms ct now per) samples).result.sample = news
    rw [hnews]
    exact List.nil_append news
  have hsyms : convertKernelSymbols env = [] := by
    simp [convertKernelSymbols, herr]
  refine ⟨rfl, ?_⟩
  intro i ki si a hi hki
  obtain ⟨smp, h1, _, _, hchari⟩ := hchar i si hi
  obtain ⟨l, hl, hlook⟩ := hchari ki a hki
  have hnf : kernelSymbolFor (convertKernelSymbols env) a = "not found" := by
    rw [hsyms]
    rfl
  rw [hnf] at hlook
  obtain ⟨f, hline, hfname⟩ := hI.kName _ _ (alookup_mem hlook)
  refine ⟨smp, l, f, ?_, hl, hline, hfname⟩
  rw [hs]
  exact h1

/-- Claim C10: each emitted pprof sample's value vector has exactly one
element, the raw sample's unsigned 64-bit value reinterpreted as a signed
64-bit integer; consequently any raw value at or above `2^63` is recorded as a
negative sample value. -/
theorem sample_value_reinterpreted (env : Env) (djit : Bool) (pid : Nat)
    (ms : List ProcessMapping) (ct now per : Int) (samples : List RawSample)
    (i : Nat) (si : RawSample) (h : samples[i]? = some si) :
    (∃ smp : Sample,
      (Convert env (NewConverter djit pid ms ct now per) samples).1.sample[i]?
        = some smp ∧
      smp.value = [uint64ToInt64 si.value]) ∧
    ∀ v : Nat, 2 ^ 63 ≤ v → v < 2 ^ 64 → uint64ToInt64 v < 0 := by
  obtain ⟨hI, hE, news, hnews, hlen, hchar⟩ :=
    convertLoop_spec env (convertKernelSymbols env) samples
      (NewConverter djit pid ms ct now per) (NewConverter_inv djit pid ms ct now per)
  have hs : (Convert env (NewConverter djit pid ms ct now per) samples).1.sample = news := by
    show (convertLoop env (convertKernelSymbols env)
        (NewConverter djit pid ms ct now per) samples).result.sample = news
    rw [hnews]
    exact List.nil_append news
  constructor
  · obtain ⟨smp, h1, hval, _⟩ := hchar i si h
    refine ⟨smp, ?_, hval⟩
    rw [hs]
    exact h1
  · intro v h1 h2
    simp only [uint64ToInt64]
    rw [if_neg (by omega)]
    omega

/-!
Section: Claim theorems for the debuginfo manager and the VDSO probe
-/

/-- Claim C7: `shouldInitiate` returns `false` on a cache hit; on a miss it
consults the backend — a backend error yields `true` (fail-open), a "no" reply
populates the cache and yields `false`, a "yes" reply yields `true`. -/
theorem should_initiate_cases (cache : List String) (resp : Except Unit Bool)
    (buildID : String) :
    (buildID ∈ cache → shouldInitiate cache resp buildID = (false, cache)) ∧
    (buildID ∉ cache → resp = Except.error () →
      shouldInitiate cache resp buildID = (true, cache)) ∧
    (buildID ∉ cache → resp = Except.ok false →
      shouldInitiate cache resp buildID = (false, buildID :: cache)) ∧
    (buildID ∉ cache → resp = Except.ok true →
      shouldInitiate cache resp buildID = (true, cache)) := by
  refine ⟨?_, ?_, ?_, ?_⟩
  · intro h
    simp [shouldInitiate, h]
  · intro h1 h2
    simp [shouldInitiate, h1, h2]
  · intro h1 h2
    simp [shouldInitiate, h1, h2]
  · intro h1 h2
    simp [shouldInitiate, h1, h2]

/-- Claim C8: when `InitiateUpload` fails with gRPC status `AlreadyExists`,
`upload` populates the should-initiate cache with the build ID and returns
success without transferring a body, and a subsequent `EnsureUploaded` with
that cache returns success without entering the upload path. -/
theorem upload_already_exists (env : DebugEnv) (cache : List String)
    (buildID hsh : String)
    (h1 : buildID ∉ cache)
    (h2 : env.backendShouldInitiate = Except.ok true)
    (h3 : env.hashResult = Except.ok hsh)
    (h4 : env.initiateUploadResult = Except.error GrpcCode.alreadyExists) :
    (uploadOp env cache buildID).err = none ∧
    (uploadOp env cache buildID).bodyTransferred = false ∧
    buildID ∈ (uploadOp env cache buildID).cache ∧
    ∀ env2 : DebugEnv,
      (EnsureUploaded env2 (uploadOp env cache buildID).cache buildID).err = none ∧
      (EnsureUploaded env2 (uploadOp env cache buildID).cache buildID).uploadIssued
        = false := by
  have hsi : shouldInitiate cache env.backendShouldInitiate buildID = (true, cache) := by
    simp [shouldInitiate, h1, h2]
  have hv : uploadOp env cache buildID =
      { err := none, cache := buildID :: cache,
        bodyTransferred := false, markFinished := false } := by
    simp [uploadOp, hsi, h3, h4]
  refine ⟨by rw [hv], by rw [hv], ?_, ?_⟩
  · rw [hv]
    exact List.mem_cons_self _ _
  · intro env2
    have hmem : buildID ∈ (uploadOp env cache buildID).cache := by
      rw [hv]
      exact List.mem_cons_self _ _
    have hsi2 : shouldInitiate (uploadOp env cache buildID).cache
        env2.backendShouldInitiate buildID
        = (false, (uploadOp env cache buildID).cache) := by
      simp [shouldInitiate, hmem]
    constructor <;> simp [EnsureUploaded, hsi2]

/-- Claim C9 (counterexample): at kernel release `"6.1.0"` the probe loop's
first path is `/usr/lib/modules/6.1.0/vdso/vdso.so` — with a `vdso/` directory
component — so the probed paths differ from the spec's stated
`/usr/lib/modules/<release>/vdso.so` and `/usr/lib/modules/<release>/vdso64.so`. -/
theorem vdso_paths_counterexample :
    vdsoProbe "6.1.0" (fun _ => Except.ok ())
      = Except.ok "/usr/lib/modules/6.1.0/vdso/vdso.so" ∧
    codeVdsoProbePaths "6.1.0"
      = ["/usr/lib/modules/6.1.0/vdso/vdso.so",
         "/usr/lib/modules/6.1.0/vdso/vdso64.so"] ∧
    codeVdsoProbePaths "6.1.0" ≠ specVdsoProbePaths "6.1.0" := by
  refine ⟨by rfl, by decide, by decide⟩

/-- Claim C9 (amended): VDSO cache construction probes exactly
`/usr/lib/modules/<release>/vdso/vdso.so` then
`/usr/lib/modules/<release>/vdso/vdso64.so`, uses the first candidate that
opens, and the probe fails only when neither opens. -/
theorem vdso_probe_amended (kv : String) (op : String → Except Unit Unit) :
    codeVdsoProbePaths kv = [vdsoPath kv "vdso.so", vdsoPath kv "vdso64.so"] ∧
    (op (vdsoPath kv "vdso.so") = Except.ok () →
      vdsoProbe kv op = Except.ok (vdsoPath kv "vdso.so")) ∧
    (op (vdsoPath kv "vdso.so") = Except.error () →
      op (vdsoPath kv "vdso64.so") = Except.ok () →
      vdsoProbe kv op = Except.ok (vdsoPath kv "vdso64.so")) ∧
    (op (vdsoPath kv "vdso.so") = Except.error () →
      op (vdsoPath kv "vdso64.so") = Except.error () →
      vdsoProbe kv op = Except.error ()) := by
  refine ⟨rfl, ?_, ?_, ?_⟩
  · intro h1
    simp [vdsoProbe, vdsoProbeAux, vdsoCandidates, h1]
  · intro h1 h2
    simp [vdsoProbe, vdsoProbeAux, vdsoCandidates, h1, h2]
  · intro h1 h2
    simp [vdsoProbe, vdsoProbeAux, vdsoCandidates, h1, h2]

/-- Claim C6 (counterexample): with capture timestamp 0 and construction time
5, the profile's `duration_nanos` is already 5 — not unset — directly after
`NewConverter`, and `Convert` leaves it at that value rather than filling it
in at conversion time. -/
theorem duration_counterexample :
    (NewConverter false 0 [] 0 5 0).result.durationNanos = 5 ∧
    (NewConverter false 0 [] 0 5 0).result.durationNanos ≠ 0 ∧
    (Convert (Env.mk (Except.ok []) (fun _ a => Except.ok a)
        (fun _ _ => Except.ok "x") (fun _ => (none, none)) (fun _ => (none, none)))
      (NewConverter false 0 [] 0 5 0) []).1.durationNanos = 5 := by
  refine ⟨by decide, by decide, by decide⟩

/-!
Section: Witnesses: concrete instantiations of the hypothesised claim theorems
-/

/-- A concrete converter environment for witnesses. -/
def envW : Env :=
  { kernelSymbolsResult := Except.ok [(4096, "do_syscall_64")]
    normalize := fun _ a => Except.ok a
    vdsoResolve := fun _ _ => Except.ok "vdso_fn"
    perfMapForPID := fun _ => (none, none)
    jitdumpForPath := fun _ => (none, none) }

/-- A converter environment whose kernel-symbol resolver fails. -/
def envE : Env :=
  { kernelSymbolsResult := Except.error ()
    normalize := fun _ a => Except.ok a
    vdsoResolve := fun _ _ => Except.ok "vdso_fn"
    perfMapForPID := fun _ => (none, none)
    jitdumpForPath := fun _ => (none, none) }

/-- A raw sample with one kernel frame. -/
def rawW : RawSample := { value := 1, userStack := [], kernelStack := [4096] }

/-- A raw sample with one mapped and one unmapped user frame. -/
def rawW2 : RawSample := { value := 1, userStack := [16, 999], kernelStack := [] }

/-- A raw sample whose value has the top bit set. -/
def rawBig : RawSample := { value := 2 ^ 63, userStack := [], kernelStack := [] }

/-- A process mapping covering `[16, 32)`. -/
def pmapW : ProcessMapping :=
  { start := 16, limit := 32, offset := 0, file := "bin", buildId := "" }

/-- A profile mapping covering `[16, 32)`. -/
def mapW : Mapping :=
  { id := 1, start := 16, limit := 32, offset := 0, file := "bin", buildId := "" }

/-- A concrete debuginfo backend for witnesses: says to initiate, then reports
`AlreadyExists` on `InitiateUpload`. -/
def denvW : DebugEnv :=
  { backendShouldInitiate := Except.ok true
    initiateUploadResult := Except.error GrpcCode.alreadyExists
    hashResult := Except.ok "hashW"
    grpcUploadResult := Except.ok ()
    signedURLUploadResult := Except.ok ()
    markUploadFinishedResult := Except.ok ()
    extractOrFindResult := Except.ok () }

theorem convert_dedup_unique_witness :
    ∃ l : Location,
      ((Convert envW (NewConverter false 0 [] 0 5 0) [rawW, rawW]).1.sample[0]?.bind
        (fun smp => smp.location[0]?)) = some l ∧
      ((Convert envW (NewConverter false 0 [] 0 5 0) [rawW, rawW]).1.sample[1]?.bind
        (fun smp => smp.location[0]?)) = some l ∧
      ((Convert envW (NewConverter false 0 [] 0 5 0) [rawW, rawW]).1.location.filter
        (fun l2 => l2.id == l.id)).length = 1 :=
  (convert_dedup_unique envW false 0 [] 0 5 0 [rawW, rawW] 0 1 0 0 rawW rawW 4096
    rfl rfl rfl rfl).2.2.2.2.2

theorem user_frame_first_mapping_and_drop_witness :
    (mapW.start < mapW.limit ∧ mappingForAddr [mapW] mapW.start = some 0) ∧
    mappingForAddr [mapW] mapW.limit = none ∧
    (rawW2.userStack.countP (fun a =>
        (mappingForAddr (NewConverter false 0 [pmapW] 0 5 0).result.mapping a).isNone)
      = 1 ∧
      ∃ smp : Sample,
        (Convert envW (NewConverter false 0 [pmapW] 0 5 0) [rawW2]).1.sample = [smp] ∧
        smp.location.length = rawW2.kernelStack.length + rawW2.userStack.length - 1 ∧
        (convertFinal envW (NewConverter false 0 [pmapW] 0 5 0) [rawW2]).frameDropMappingNil
          = 1) :=
  ⟨⟨by decide, user_frame_first_mapping_and_drop.2.1 mapW (by decide)⟩,
   user_frame_first_mapping_and_drop.2.2.1 mapW,
   ⟨by decide,
    user_frame_first_mapping_and_drop.2.2.2 envW false 0 [pmapW] 0 5 0 rawW2 (by decide)⟩⟩

theorem convert_symbolization_fail_open_witness :
    envE.kernelSymbolsResult = Except.error () ∧
    (Convert envE (NewConverter false 0 [] 0 5 0) [rawW]).2 = none ∧
    ∃ (smp : Sample) (l : Location) (f : PFunction),
      (Convert envE (NewConverter false 0 [] 0 5 0) [rawW]).1.sample[0]? = some smp ∧
      smp.location[0]? = some l ∧
      l.line = [{ function := f }] ∧
      f.name = "not found" :=
  ⟨rfl,
   (convert_symbolization_fail_open envE false 0 [] 0 5 0 [rawW] rfl).1,
   (convert_symbolization_fail_open envE false 0 [] 0 5 0 [rawW] rfl).2 0 0 rawW 4096
     rfl rfl⟩

theorem should_initiate_cases_witness :
    ("a" ∈ ["a"] ∧ shouldInitiate ["a"] (Except.ok true) "a" = (false, ["a"])) ∧
    ("b" ∉ ["a"] ∧ shouldInitiate ["a"] (Except.error ()) "b" = (true, ["a"])) ∧
    ("b" ∉ ["a"] ∧ shouldInitiate ["a"] (Except.ok false) "b" = (false, ["b", "a"])) ∧
    ("b" ∉ ["a"] ∧ shouldInitiate ["a"] (Except.ok true) "b" = (true, ["a"])) :=
  ⟨⟨by decide, (should_initiate_cases ["a"] (Except.ok true) "a").1 (by decide)⟩,
   ⟨by decide, (should_initiate_cases ["a"] (Except.error ()) "b").2.1 (by decide) rfl⟩,
   ⟨by decide, (should_initiate_cases ["a"] (Except.ok false) "b").2.2.1 (by decide) rfl⟩,
   ⟨by decide, (should_initiate_cases ["a"] (Except.ok true) "b").2.2.2 (by decide) rfl⟩⟩

theorem upload_already_exists_witness :
    ("b" ∉ ([] : List String)) ∧
    (uploadOp denvW [] "b").err = none ∧
    (uploadOp denvW [] "b").bodyTransferred = false ∧
    "b" ∈ (uploadOp denvW [] "b").cache ∧
    (EnsureUploaded denvW (uploadOp denvW [] "b").cache "b").err = none ∧
    (EnsureUploaded denvW (uploadOp denvW [] "b").cache "b").uploadIssued = false := by
  have h := upload_already_exists denvW [] "b" "hashW" (by decide) rfl rfl rfl
  exact ⟨by decide, h.1, h.2.1, h.2.2.1, (h.2.2.2 denvW).1, (h.2.2.2 denvW).2⟩

theorem vdso_probe_amended_witness :
    ((fun _ : String => (Except.ok () : Except Unit Unit)) (vdsoPath "6.1.0" "vdso.so")
      = Except.ok ()) ∧
    vdsoProbe "6.1.0" (fun _ => Except.ok ())
      = Except.ok (vdsoPath "6.1.0" "vdso.so") :=
  ⟨rfl, (vdso_probe_amended "6.1.0" (fun _ => Except.ok ())).2.1 rfl⟩

theorem sample_value_reinterpreted_witness :
    (∃ smp : Sample,
      (Convert envW (NewConverter false 0 [] 0 5 0) [rawBig]).1.sample[0]? = some smp ∧
      smp.value = [uint64ToInt64 rawBig.value]) ∧
    (2 ^ 63 ≤ 2 ^ 63 ∧ (2 ^ 63 : Nat) < 2 ^ 64 ∧ uint64ToInt64 (2 ^ 63) < 0) := by
  have h := sample_value_reinterpreted envW false 0 [] 0 5 0 [rawBig] 0 rawBig rfl
  exact ⟨h.1, le_refl _, by decide, h.2 (2 ^ 63) (le_refl _) (by decide)⟩
